import Mathlib

/-!
Verification of the 500px API client pagination core.

The definitions below are a shallow embedding of the Go source:
`PhotoRequest`, `PhotoSearch`, `CommentsRequest` and their
`adjustPaginationParams` / `Validate` methods, the `pageExceeds` bound
check, the `makeCanceler` one-shot latch, and the three channel-driven
page loops of `ListPhotos`, `SearchPhotos` and `CommentsForPhoto`,
modelled as fuel-indexed recursive functions that record the emitted
pages, the page numbers the loop iterated over, and whether the loop
exited (the channel was closed) or the fuel ran out.

The HTTP pipeline of one loop iteration (ToURLValues, NewRequest,
doAuthAndRequest, json.Unmarshal) is abstracted as a `source` function
from the serialized query fields to a `FetchOutcome`: one failure
constructor per pipeline stage, or the decoded page.  The query view
contains exactly the JSON-tagged fields that otils.ToURLValues
serializes; in particular `MaxPageNumber` is tagged json:"-" in the Go
structs and so is absent from the view.
-/

set_option maxRecDepth 8192

namespace Px500

/-- Go `type Feature string`. -/
abbrev Feature := String

/-- Go `type SortOrder string`. -/
abbrev SortOrder := String

/-- Go `type Store string`. -/
abbrev Store := String

/-- Go `type Size uint`. -/
abbrev Size := Nat

/-- Go `type LicenseType int`. -/
abbrev LicenseType := Int

/-- Go `type Category string`. -/
abbrev Category := String

/-- message of `errNilPhotoRequest`. -/
def errNilPhotoRequest : String := "expecting a non-nil photoRequest"

/-- message of `errEmptyFeature`. -/
def errEmptyFeature : String := "expecting a non-empty feature"

/-- message of `errNilPhotoSearch`. -/
def errNilPhotoSearch : String := "expecting a non-nil photoSearch"

/-- message of `errNilCommentsRequest`. -/
def errNilCommentsRequest : String := "expecting a non-nil commentsRequest"

/-- message of `errEmptyPhotoID`. -/
def errEmptyPhotoID : String := "expecting a non-empty photoID"

/-- Go struct `PhotoRequest` (v1/photos.go). -/
structure PhotoRequest where
  feature : Feature
  userID : String
  username : String
  only : String
  exclude : String
  sortBy : SortOrder
  imageSize : Size
  includeStore : Store
  tags : List String
  pageNumber : Int
  limitPerPage : Int
  maxPageNumber : Int
  deriving DecidableEq

/-- The JSON-tagged fields of `PhotoRequest` that otils.ToURLValues
serializes into the query string; `MaxPageNumber` is json:"-" and is
therefore not part of the query. -/
structure PhotoRequestQuery where
  feature : Feature
  userID : String
  username : String
  only : String
  exclude : String
  sortBy : SortOrder
  imageSize : Size
  includeStore : Store
  tags : List String
  page : Int
  rpp : Int
  deriving DecidableEq

/-- Projection of a `PhotoRequest` onto its query fields. -/
def PhotoRequest.toQuery (p : PhotoRequest) : PhotoRequestQuery :=
  ⟨p.feature, p.userID, p.username, p.only, p.exclude, p.sortBy,
   p.imageSize, p.includeStore, p.tags, p.pageNumber, p.limitPerPage⟩

/-- Go `func (p *PhotoRequest) adjustPaginationParams()`, as a pure
function on the record. -/
def PhotoRequest.adjustPaginationParams (p0 : PhotoRequest) : PhotoRequest :=
  let p1 := if p0.pageNumber ≤ 0 then { p0 with pageNumber := 1 } else p0
  let p2 := if p1.limitPerPage ≤ 0 then { p1 with limitPerPage := 20 } else p1
  if p2.limitPerPage ≥ 100 then { p2 with limitPerPage := 100 } else p2

/-- Go `func (preq *PhotoRequest) Validate() error`; the `Option`
argument models the possibly-nil pointer, the `Option String` result the
possibly-nil error. -/
def PhotoRequest.Validate : Option PhotoRequest → Option String
  | none => some errNilPhotoRequest
  | some preq => if preq.feature = "" then some errEmptyFeature else none

/-- Go struct `PhotoSearch` (v1/photos.go). -/
structure PhotoSearch where
  term : String
  tag : String
  only : Category
  exclude : Category
  excludeNSFW : Bool
  pageNumber : Int
  limitPerPage : Int
  tags : List String
  userID : String
  imageSizes : List Size
  licenseTypes : List LicenseType
  sortBy : SortOrder
  maxPageNumber : Int
  deriving DecidableEq

/-- The JSON-tagged fields of `PhotoSearch` serialized into the query;
`MaxPageNumber` is json:"-". -/
structure PhotoSearchQuery where
  term : String
  tag : String
  only : Category
  exclude : Category
  excludeNude : Bool
  page : Int
  rpp : Int
  tags : List String
  userID : String
  imageSizes : List Size
  licenseTypes : List LicenseType
  sort : SortOrder
  deriving DecidableEq

/-- Projection of a `PhotoSearch` onto its query fields. -/
def PhotoSearch.toQuery (s : PhotoSearch) : PhotoSearchQuery :=
  ⟨s.term, s.tag, s.only, s.exclude, s.excludeNSFW, s.pageNumber,
   s.limitPerPage, s.tags, s.userID, s.imageSizes, s.licenseTypes, s.sortBy⟩

/-- Go `func (ps *PhotoSearch) adjustPaginationParams()`.  (The
`SearchPhotos` entry point never calls it, but the method exists.) -/
def PhotoSearch.adjustPaginationParams (s0 : PhotoSearch) : PhotoSearch :=
  let s1 := if s0.pageNumber ≤ 0 then { s0 with pageNumber := 1 } else s0
  let s2 := if s1.limitPerPage ≤ 0 then { s1 with limitPerPage := 20 } else s1
  if s2.limitPerPage ≥ 100 then { s2 with limitPerPage := 100 } else s2

/-- Go struct `CommentsRequest`. -/
structure CommentsRequest where
  photoID : String
  pageNumber : Int
  nested : Bool
  maxPageNumber : Int
  deriving DecidableEq

/-- Go `func (creq *CommentsRequest) Validate() error`. -/
def CommentsRequest.Validate : Option CommentsRequest → Option String
  | none => some errNilCommentsRequest
  | some creq => if creq.photoID = "" then some errEmptyPhotoID else none

/-- Go struct `commentsPager`: the part of a comments request that is
serialized into the query string (json tags "page" and "nested"). -/
structure commentsPager where
  pageNumber : Int
  nested : Bool
  deriving DecidableEq

/-- Go `func (cp *commentsPager) adjustPaginationParams()`: only the
page number is clamped (no items-per-page field). -/
def commentsPager.adjustPaginationParams (cp : commentsPager) : commentsPager :=
  if cp.pageNumber ≤ 0 then { cp with pageNumber := 1 } else cp

/-- Go struct `PhotoPage`, with the photo collection abstracted over the
item type `α` (the engines only ever take its length). -/
structure PhotoPage (α : Type) where
  feature : Feature
  filters : List (String × String)
  currentPage : Int
  totalPage : Int
  totalItems : Int
  photos : List α
  err : Option String
  pageNumber : Int
  deriving DecidableEq

/-- Go struct `CommentsPage`; `pageNumber` is the json "current_page"
field, decoded from the response and never overwritten by the engine. -/
structure CommentsPage (α : Type) where
  mediaType : String
  pageNumber : Int
  totalPages : Int
  totalItems : Int
  comments : List α
  err : Option String
  deriving DecidableEq

/-- The outcome of one iteration's HTTP pipeline: a failure in one of
its four stages (otils.ToURLValues, http.NewRequest, doAuthAndRequest,
json.Unmarshal), or the decoded page. -/
inductive FetchOutcome (π : Type) where
  | failQuery (msg : String)
  | failRequest (msg : String)
  | failTransport (msg : String)
  | failDecode (msg : String)
  | ok (page : π)
  deriving DecidableEq

/-- The error message of a failed outcome, `none` on success. -/
def FetchOutcome.failMsg : FetchOutcome π → Option String
  | .failQuery e => some e
  | .failRequest e => some e
  | .failTransport e => some e
  | .failDecode e => some e
  | .ok _ => none

/-- Go `pageExceeds` closure shared by all three loops:
`maxPageNumber <= 0` means unbounded. -/
def pageExceeds (maxPageNumber page : Int) : Bool :=
  if maxPageNumber ≤ 0 then false else decide (page ≥ maxPageNumber)

/-- `new(PhotoPage)` zero value carrying only an error, as built on every
error path of the photo loops. -/
def errPhotoPage (e : String) : PhotoPage α :=
  ⟨"", [], 0, 0, 0, [], some e, 0⟩

/-- `new(CommentsPage)` zero value carrying only an error. -/
def errCommentsPage (e : String) : CommentsPage α :=
  ⟨"", 0, 0, 0, [], some e⟩

/-- Observable behaviour of one streaming invocation: the pages sent on
the channel in order, the page numbers the loop iterated over in order,
and whether the loop exited (so the channel was closed) before the fuel
ran out. -/
structure RunTrace (π : Type) where
  emitted : List π
  fetched : List Int
  finished : Bool
  deriving DecidableEq

/-- The `ListPhotos` goroutine loop.  `source` abstracts the HTTP
pipeline, applied to the query view of the current request; `cancelled`
tells whether the cancel channel is closed at the post-emission select
for a given page number.  Note the loop has no empty-page check: every
decoded page is stamped and emitted. -/
def listRun (source : PhotoRequestQuery → FetchOutcome (PhotoPage α))
    (cancelled : Int → Bool) : PhotoRequest → Nat → RunTrace (PhotoPage α)
  | _, 0 => ⟨[], [], false⟩
  | preq, Nat.succ fuel =>
    match source preq.toQuery with
    | .failQuery e => ⟨[errPhotoPage e], [preq.pageNumber], true⟩
    | .failRequest e => ⟨[errPhotoPage e], [preq.pageNumber], true⟩
    | .failTransport e => ⟨[errPhotoPage e], [preq.pageNumber], true⟩
    | .failDecode e => ⟨[errPhotoPage e], [preq.pageNumber], true⟩
    | .ok pp0 =>
      let pp := { pp0 with pageNumber := preq.pageNumber }
      if cancelled preq.pageNumber then ⟨[pp], [preq.pageNumber], true⟩
      else if pageExceeds preq.maxPageNumber preq.pageNumber then
        ⟨[pp], [preq.pageNumber], true⟩
      else
        let rest := listRun source cancelled
          { preq with pageNumber := preq.pageNumber + 1 } fuel
        ⟨pp :: rest.emitted, preq.pageNumber :: rest.fetched, rest.finished⟩

/-- The `SearchPhotos` goroutine loop.  An empty decoded photo
collection is emitted as-is (not stamped) and ends the loop; a non-empty
page is stamped with the current page number before emission. -/
def searchRun (source : PhotoSearchQuery → FetchOutcome (PhotoPage α))
    (cancelled : Int → Bool) : PhotoSearch → Nat → RunTrace (PhotoPage α)
  | _, 0 => ⟨[], [], false⟩
  | ps, Nat.succ fuel =>
    match source ps.toQuery with
    | .failQuery e => ⟨[errPhotoPage e], [ps.pageNumber], true⟩
    | .failRequest e => ⟨[errPhotoPage e], [ps.pageNumber], true⟩
    | .failTransport e => ⟨[errPhotoPage e], [ps.pageNumber], true⟩
    | .failDecode e => ⟨[errPhotoPage e], [ps.pageNumber], true⟩
    | .ok pp0 =>
      if pp0.photos.length < 1 then ⟨[pp0], [ps.pageNumber], true⟩
      else
        let pp := { pp0 with pageNumber := ps.pageNumber }
        if cancelled ps.pageNumber then ⟨[pp], [ps.pageNumber], true⟩
        else if pageExceeds ps.maxPageNumber ps.pageNumber then
          ⟨[pp], [ps.pageNumber], true⟩
        else
          let rest := searchRun source cancelled
            { ps with pageNumber := ps.pageNumber + 1 } fuel
          ⟨pp :: rest.emitted, ps.pageNumber :: rest.fetched, rest.finished⟩

/-- The `CommentsForPhoto` goroutine loop.  An empty decoded comment
collection ends the loop without emitting; decoded pages are emitted
unmodified (no page-number stamping). -/
def commentsRun (source : String → commentsPager → FetchOutcome (CommentsPage α))
    (cancelled : Int → Bool) (photoID : String) (maxPageNumber : Int) :
    commentsPager → Nat → RunTrace (CommentsPage α)
  | _, 0 => ⟨[], [], false⟩
  | cp, Nat.succ fuel =>
    match source photoID cp with
    | .failQuery e => ⟨[errCommentsPage e], [cp.pageNumber], true⟩
    | .failRequest e => ⟨[errCommentsPage e], [cp.pageNumber], true⟩
    | .failTransport e => ⟨[errCommentsPage e], [cp.pageNumber], true⟩
    | .failDecode e => ⟨[errCommentsPage e], [cp.pageNumber], true⟩
    | .ok cpage =>
      if cpage.comments.length < 1 then ⟨[], [cp.pageNumber], true⟩
      else if cancelled cp.pageNumber then ⟨[cpage], [cp.pageNumber], true⟩
      else if pageExceeds maxPageNumber cp.pageNumber then
        ⟨[cpage], [cp.pageNumber], true⟩
      else
        let rest := commentsRun source cancelled photoID maxPageNumber
          { cp with pageNumber := cp.pageNumber + 1 } fuel
        ⟨cpage :: rest.emitted, cp.pageNumber :: rest.fetched, rest.finished⟩

/-- `Client.ListPhotos` entry point: validate, snapshot the request into
a private copy, normalize the copy, then run the loop.  The `error`
branch models the `(nil, nil, err)` return: no channel, no cancel
function, no background work. -/
def ListPhotosStream (source : PhotoRequestQuery → FetchOutcome (PhotoPage α))
    (cancelled : Int → Bool) (fuel : Nat) (oreq : Option PhotoRequest) :
    Except String (RunTrace (PhotoPage α)) :=
  match PhotoRequest.Validate oreq with
  | some e => .error e
  | none =>
    match oreq with
    | none => .error errNilPhotoRequest
    | some r => .ok (listRun source cancelled r.adjustPaginationParams fuel)

/-- `Client.SearchPhotos` entry point: nil check, snapshot into a
private copy (no normalization call in the source), run the loop. -/
def SearchPhotosStream (source : PhotoSearchQuery → FetchOutcome (PhotoPage α))
    (cancelled : Int → Bool) (fuel : Nat) (ops : Option PhotoSearch) :
    Except String (RunTrace (PhotoPage α)) :=
  match ops with
  | none => .error errNilPhotoSearch
  | some o => .ok (searchRun source cancelled o fuel)

/-- `Client.CommentsForPhoto` entry point: validate, copy the page
number and nested flag into a `commentsPager`, normalize the pager, run
the loop with the request's photo id and max page bound. -/
def CommentsForPhotoStream
    (source : String → commentsPager → FetchOutcome (CommentsPage α))
    (cancelled : Int → Bool) (fuel : Nat) (creq : Option CommentsRequest) :
    Except String (RunTrace (CommentsPage α)) :=
  match CommentsRequest.Validate creq with
  | some e => .error e
  | none =>
    match creq with
    | none => .error errNilCommentsRequest
    | some r =>
      .ok (commentsRun source cancelled r.photoID r.maxPageNumber
        (commentsPager.adjustPaginationParams ⟨r.pageNumber, r.nested⟩) fuel)

/-- The loop iterations performed by a stream call: none at all when the
entry point rejected the request. -/
def streamFetches : Except String (RunTrace π) → List Int
  | .error _ => []
  | .ok t => t.fetched

/-- A cancel channel that never fires (the caller never invokes the
cancel function). -/
def noCancel : Int → Bool := fun _ => false

/-- The `n` consecutive page numbers starting at `p`. -/
def pageList (p : Int) : Nat → List Int
  | 0 => []
  | Nat.succ n => p :: pageList (p + 1) n

theorem pageList_length (p : Int) (n : Nat) : (pageList p n).length = n := by
  induction n generalizing p with
  | zero => rfl
  | succ n ih => simp [pageList, ih]

theorem pageList_mem (p : Int) (n : Nat) :
    ∀ q ∈ pageList p n, p ≤ q ∧ q < p + n := by
  induction n generalizing p with
  | zero => simp [pageList]
  | succ n ih =>
    intro q hq
    rw [pageList] at hq
    rcases List.mem_cons.1 hq with hq | hq
    · subst hq
      push_cast
      omega
    · have h := ih (p + 1) q hq
      push_cast at h ⊢
      omega

theorem pageList_nodup (p : Int) (n : Nat) : (pageList p n).Nodup := by
  induction n generalizing p with
  | zero => simp [pageList]
  | succ n ih =>
    refine List.nodup_cons.2 ⟨fun hmem => ?_, ih (p + 1)⟩
    have := pageList_mem (p + 1) n p hmem
    omega

theorem pageExceeds_nonpos (m q : Int) (h : m ≤ 0) : pageExceeds m q = false := by
  simp [pageExceeds, h]

theorem pageExceeds_pos (m q : Int) (h : 1 ≤ m) :
    pageExceeds m q = decide (q ≥ m) := by
  simp only [pageExceeds, if_neg (by omega : ¬ m ≤ 0)]

theorem listRun_fail (source : PhotoRequestQuery → FetchOutcome (PhotoPage α))
    (c : Int → Bool) (preq : PhotoRequest) (fuel : Nat) (e : String)
    (h : (source preq.toQuery).failMsg = some e) :
    listRun source c preq (fuel + 1) = ⟨[errPhotoPage e], [preq.pageNumber], true⟩ := by
  rw [listRun]
  cases hs : source preq.toQuery <;>
    simp [hs, FetchOutcome.failMsg] at h ⊢ <;> simp [h]

theorem listRun_ok_step (source : PhotoRequestQuery → FetchOutcome (PhotoPage α))
    (c : Int → Bool) (preq : PhotoRequest) (fuel : Nat) (pp0 : PhotoPage α)
    (h : source preq.toQuery = .ok pp0) :
    listRun source c preq (fuel + 1) =
      (let pp := { pp0 with pageNumber := preq.pageNumber }
       if c preq.pageNumber then
         (⟨[pp], [preq.pageNumber], true⟩ : RunTrace (PhotoPage α))
       else if pageExceeds preq.maxPageNumber preq.pageNumber then
         ⟨[pp], [preq.pageNumber], true⟩
       else
         let rest := listRun source c { preq with pageNumber := preq.pageNumber + 1 } fuel
         ⟨pp :: rest.emitted, preq.pageNumber :: rest.fetched, rest.finished⟩) := by
  rw [listRun, h]

theorem searchRun_fail (source : PhotoSearchQuery → FetchOutcome (PhotoPage α))
    (c : Int → Bool) (ps : PhotoSearch) (fuel : Nat) (e : String)
    (h : (source ps.toQuery).failMsg = some e) :
    searchRun source c ps (fuel + 1) = ⟨[errPhotoPage e], [ps.pageNumber], true⟩ := by
  rw [searchRun]
  cases hs : source ps.toQuery <;>
    simp [hs, FetchOutcome.failMsg] at h ⊢ <;> simp [h]

theorem searchRun_ok_step (source : PhotoSearchQuery → FetchOutcome (PhotoPage α))
    (c : Int → Bool) (ps : PhotoSearch) (fuel : Nat) (pp0 : PhotoPage α)
    (h : source ps.toQuery = .ok pp0) :
    searchRun source c ps (fuel + 1) =
      (if pp0.photos.length < 1 then
         (⟨[pp0], [ps.pageNumber], true⟩ : RunTrace (PhotoPage α))
       else
         let pp := { pp0 with pageNumber := ps.pageNumber }
         if c ps.pageNumber then ⟨[pp], [ps.pageNumber], true⟩
         else if pageExceeds ps.maxPageNumber ps.pageNumber then
           ⟨[pp], [ps.pageNumber], true⟩
         else
           let rest := searchRun source c { ps with pageNumber := ps.pageNumber + 1 } fuel
           ⟨pp :: rest.emitted, ps.pageNumber :: rest.fetched, rest.finished⟩) := by
  rw [searchRun, h]

theorem commentsRun_fail (source : String → commentsPager → FetchOutcome (CommentsPage α))
    (c : Int → Bool) (pid : String) (m : Int) (cp : commentsPager) (fuel : Nat) (e : String)
    (h : (source pid cp).failMsg = some e) :
    commentsRun source c pid m cp (fuel + 1) =
      ⟨[errCommentsPage e], [cp.pageNumber], true⟩ := by
  rw [commentsRun]
  cases hs : source pid cp <;>
    simp [hs, FetchOutcome.failMsg] at h ⊢ <;> simp [h]

theorem commentsRun_ok_step (source : String → commentsPager → FetchOutcome (CommentsPage α))
    (c : Int → Bool) (pid : String) (m : Int) (cp : commentsPager) (fuel : Nat)
    (cpage : CommentsPage α) (h : source pid cp = .ok cpage) :
    commentsRun source c pid m cp (fuel + 1) =
      (if cpage.comments.length < 1 then
         (⟨[], [cp.pageNumber], true⟩ : RunTrace (CommentsPage α))
       else if c cp.pageNumber then ⟨[cpage], [cp.pageNumber], true⟩
       else if pageExceeds m cp.pageNumber then ⟨[cpage], [cp.pageNumber], true⟩
       else
         let rest := commentsRun source c pid m { cp with pageNumber := cp.pageNumber + 1 } fuel
         ⟨cpage :: rest.emitted, cp.pageNumber :: rest.fetched, rest.finished⟩) := by
  rw [commentsRun, h]

/-- On a source that decodes successfully at every page at or past the
start, with no max-page bound and no cancellation, the list loop stamps
and emits one page per unit of fuel and never exits: there is no
empty-page termination in `ListPhotos`. -/
theorem listRun_ok_forever (source : PhotoRequestQuery → FetchOutcome (PhotoPage α))
    (pg : Int → PhotoPage α) (fuel : Nat) (preq : PhotoRequest)
    (hmax : preq.maxPageNumber ≤ 0)
    (hsrc : ∀ q : Int, preq.pageNumber ≤ q →
      source ({ preq with pageNumber := q } : PhotoRequest).toQuery = .ok (pg q)) :
    listRun source noCancel preq fuel =
      ⟨(pageList preq.pageNumber fuel).map (fun q => { pg q with pageNumber := q }),
       pageList preq.pageNumber fuel, false⟩ := by
  induction fuel generalizing preq with
  | zero => simp [listRun, pageList]
  | succ fuel ih =>
    have h0 : source preq.toQuery = .ok (pg preq.pageNumber) := hsrc preq.pageNumber le_rfl
    rw [listRun_ok_step source noCancel preq fuel _ h0]
    have hstep : ∀ q : Int,
        ({ preq with pageNumber := preq.pageNumber + 1 } : PhotoRequest).pageNumber ≤ q →
        source ({ preq with pageNumber := q } : PhotoRequest).toQuery = .ok (pg q) := by
      intro q hq
      have hq2 : preq.pageNumber + 1 ≤ q := hq
      exact hsrc q (by omega)
    have ihx := ih { preq with pageNumber := preq.pageNumber + 1 } hmax hstep
    simp only [noCancel, pageExceeds_nonpos _ _ hmax, if_false, Bool.false_eq_true, ihx]
    simp [pageList]

/-- With a positive max-page bound `m`, a decode-success source and no
cancellation, the list loop emits the pages from the current page up to
`m` (stamped), then exits: the bound is checked after the emission of
page `m` and no further iteration runs. -/
theorem listRun_bounded (source : PhotoRequestQuery → FetchOutcome (PhotoPage α))
    (pg : Int → PhotoPage α) (k : Nat) :
    ∀ (fuel : Nat) (preq : PhotoRequest),
      1 ≤ preq.maxPageNumber →
      preq.pageNumber + k = preq.maxPageNumber →
      k < fuel →
      (∀ q : Int, preq.pageNumber ≤ q → q ≤ preq.maxPageNumber →
        source ({ preq with pageNumber := q } : PhotoRequest).toQuery = .ok (pg q)) →
      listRun source noCancel preq fuel =
        ⟨(pageList preq.pageNumber (k + 1)).map (fun q => { pg q with pageNumber := q }),
         pageList preq.pageNumber (k + 1), true⟩ := by
  induction k with
  | zero =>
    intro fuel preq hm hpk hfuel hsrc
    obtain ⟨f, rfl⟩ : ∃ f, fuel = f + 1 := ⟨fuel - 1, by omega⟩
    have h0 : source preq.toQuery = .ok (pg preq.pageNumber) :=
      hsrc preq.pageNumber le_rfl (by omega)
    rw [listRun_ok_step source noCancel preq f _ h0]
    have hex : pageExceeds preq.maxPageNumber preq.pageNumber = true := by
      rw [pageExceeds_pos _ _ hm]
      simp
      omega
    simp [noCancel, hex, pageList]
  | succ k ih =>
    intro fuel preq hm hpk hfuel hsrc
    obtain ⟨f, rfl⟩ : ∃ f, fuel = f + 1 := ⟨fuel - 1, by omega⟩
    have h0 : source preq.toQuery = .ok (pg preq.pageNumber) :=
      hsrc preq.pageNumber le_rfl (by omega)
    rw [listRun_ok_step source noCancel preq f _ h0]
    have hex : pageExceeds preq.maxPageNumber preq.pageNumber = false := by
      rw [pageExceeds_pos _ _ hm]
      simp
      omega
    have hstep : ∀ q : Int,
        ({ preq with pageNumber := preq.pageNumber + 1 } : PhotoRequest).pageNumber ≤ q →
        q ≤ ({ preq with pageNumber := preq.pageNumber + 1 } : PhotoRequest).maxPageNumber →
        source ({ preq with pageNumber := q } : PhotoRequest).toQuery = .ok (pg q) := by
      intro q hq1 hq2
      have hq1x : preq.pageNumber + 1 ≤ q := hq1
      have hq2x : q ≤ preq.maxPageNumber := hq2
      exact hsrc q (by omega) hq2x
    have ihx := ih f { preq with pageNumber := preq.pageNumber + 1 } hm
      (by push_cast at hpk ⊢; omega) (by omega) hstep
    simp only [noCancel, hex, Bool.false_eq_true, if_false, ihx]
    simp [pageList]

/-- If the source decodes successfully up to some page `P` and the
pipeline fails at `P` (any of the four stages), with no max bound and no
cancellation the list loop emits the stamped pages before `P`, then a
zero-value page carrying only the error, and exits. -/
theorem listRun_err_segment (source : PhotoRequestQuery → FetchOutcome (PhotoPage α))
    (pg : Int → PhotoPage α) (e : String) (P : Int) (k : Nat) :
    ∀ (fuel : Nat) (preq : PhotoRequest),
      preq.maxPageNumber ≤ 0 →
      preq.pageNumber + k = P →
      k < fuel →
      (∀ q : Int, preq.pageNumber ≤ q → q < P →
        source ({ preq with pageNumber := q } : PhotoRequest).toQuery = .ok (pg q)) →
      (source ({ preq with pageNumber := P } : PhotoRequest).toQuery).failMsg = some e →
      listRun source noCancel preq fuel =
        ⟨(pageList preq.pageNumber k).map (fun q => { pg q with pageNumber := q })
           ++ [errPhotoPage e],
         pageList preq.pageNumber (k + 1), true⟩ := by
  induction k with
  | zero =>
    intro fuel preq hmax hpk hfuel hsrc hfail
    obtain ⟨f, rfl⟩ : ∃ f, fuel = f + 1 := ⟨fuel - 1, by omega⟩
    have hP : ({ preq with pageNumber := P } : PhotoRequest) = preq := by
      have : P = preq.pageNumber := by push_cast at hpk; omega
      rw [this]
    rw [hP] at hfail
    rw [listRun_fail source noCancel preq f e hfail]
    simp [pageList]
  | succ k ih =>
    intro fuel preq hmax hpk hfuel hsrc hfail
    obtain ⟨f, rfl⟩ : ∃ f, fuel = f + 1 := ⟨fuel - 1, by omega⟩
    have h0 : source preq.toQuery = .ok (pg preq.pageNumber) :=
      hsrc preq.pageNumber le_rfl (by push_cast at hpk; omega)
    rw [listRun_ok_step source noCancel preq f _ h0]
    have hex : pageExceeds preq.maxPageNumber preq.pageNumber = false :=
      pageExceeds_nonpos _ _ hmax
    have hstep : ∀ q : Int,
        ({ preq with pageNumber := preq.pageNumber + 1 } : PhotoRequest).pageNumber ≤ q →
        q < P →
        source ({ preq with pageNumber := q } : PhotoRequest).toQuery = .ok (pg q) := by
      intro q hq1 hq2
      have hq1x : preq.pageNumber + 1 ≤ q := hq1
      exact hsrc q (by omega) hq2
    have ihx := ih f { preq with pageNumber := preq.pageNumber + 1 } hmax
      (by push_cast at hpk ⊢; omega) (by omega) hstep hfail
    simp only [noCancel, hex, Bool.false_eq_true, if_false, ihx]
    simp [pageList]

/-- Every page the list loop emits from a decode-success source carries
the engine's page number: the emitted pages' `pageNumber` fields are
exactly the loop's iteration page numbers, in order (any cancellation
behaviour, any max bound). -/
theorem listRun_stamped (source : PhotoRequestQuery → FetchOutcome (PhotoPage α))
    (c : Int → Bool)
    (hok : ∀ qv, ∃ pp, source qv = .ok pp) :
    ∀ (fuel : Nat) (preq : PhotoRequest),
      (listRun source c preq fuel).emitted.map (fun pp => pp.pageNumber) =
        (listRun source c preq fuel).fetched := by
  intro fuel
  induction fuel with
  | zero => intro preq; simp [listRun]
  | succ fuel ih =>
    intro preq
    obtain ⟨pp0, h0⟩ := hok preq.toQuery
    rw [listRun_ok_step source c preq fuel _ h0]
    by_cases hc : c preq.pageNumber
    · simp [hc]
    · by_cases hex : pageExceeds preq.maxPageNumber preq.pageNumber
      · simp [hc, hex]
      · simp [hc, hex, ih]

/-- With a positive max-page bound, a source that decodes non-empty
photo pages and no cancellation, the search loop emits the stamped pages
from the current page up to the bound, then exits. -/
theorem searchRun_bounded (source : PhotoSearchQuery → FetchOutcome (PhotoPage α))
    (pg : Int → PhotoPage α) (k : Nat) :
    ∀ (fuel : Nat) (ps : PhotoSearch),
      1 ≤ ps.maxPageNumber →
      ps.pageNumber + k = ps.maxPageNumber →
      k < fuel →
      (∀ q : Int, ps.pageNumber ≤ q → q ≤ ps.maxPageNumber →
        source ({ ps with pageNumber := q } : PhotoSearch).toQuery = .ok (pg q)) →
      (∀ q : Int, ps.pageNumber ≤ q → q ≤ ps.maxPageNumber → (pg q).photos ≠ []) →
      searchRun source noCancel ps fuel =
        ⟨(pageList ps.pageNumber (k + 1)).map (fun q => { pg q with pageNumber := q }),
         pageList ps.pageNumber (k + 1), true⟩ := by
  induction k with
  | zero =>
    intro fuel ps hm hpk hfuel hsrc hne
    obtain ⟨f, rfl⟩ : ∃ f, fuel = f + 1 := ⟨fuel - 1, by omega⟩
    have h0 : source ps.toQuery = .ok (pg ps.pageNumber) :=
      hsrc ps.pageNumber le_rfl (by omega)
    rw [searchRun_ok_step source noCancel ps f _ h0]
    have hcond : ¬((pg ps.pageNumber).photos.length < 1) := by
      simp only [Nat.lt_one_iff, List.length_eq_zero]
      exact hne ps.pageNumber le_rfl (by omega)
    have hex : pageExceeds ps.maxPageNumber ps.pageNumber = true := by
      rw [pageExceeds_pos _ _ hm]
      simp
      omega
    simp [hcond, noCancel, hex, pageList]
  | succ k ih =>
    intro fuel ps hm hpk hfuel hsrc hne
    obtain ⟨f, rfl⟩ : ∃ f, fuel = f + 1 := ⟨fuel - 1, by omega⟩
    have h0 : source ps.toQuery = .ok (pg ps.pageNumber) :=
      hsrc ps.pageNumber le_rfl (by omega)
    rw [searchRun_ok_step source noCancel ps f _ h0]
    have hcond : ¬((pg ps.pageNumber).photos.length < 1) := by
      simp only [Nat.lt_one_iff, List.length_eq_zero]
      exact hne ps.pageNumber le_rfl (by omega)
    have hex : pageExceeds ps.maxPageNumber ps.pageNumber = false := by
      rw [pageExceeds_pos _ _ hm]
      simp
      omega
    have hstep : ∀ q : Int,
        ({ ps with pageNumber := ps.pageNumber + 1 } : PhotoSearch).pageNumber ≤ q →
        q ≤ ({ ps with pageNumber := ps.pageNumber + 1 } : PhotoSearch).maxPageNumber →
        source ({ ps with pageNumber := q } : PhotoSearch).toQuery = .ok (pg q) := by
      intro q hq1 hq2
      have hq1x : ps.pageNumber + 1 ≤ q := hq1
      have hq2x : q ≤ ps.maxPageNumber := hq2
      exact hsrc q (by omega) hq2x
    have hnestep : ∀ q : Int,
        ({ ps with pageNumber := ps.pageNumber + 1 } : PhotoSearch).pageNumber ≤ q →
        q ≤ ({ ps with pageNumber := ps.pageNumber + 1 } : PhotoSearch).maxPageNumber →
        (pg q).photos ≠ [] := by
      intro q hq1 hq2
      have hq1x : ps.pageNumber + 1 ≤ q := hq1
      have hq2x : q ≤ ps.maxPageNumber := hq2
      exact hne q (by omega) hq2x
    have ihx := ih f { ps with pageNumber := ps.pageNumber + 1 } hm
      (by push_cast at hpk ⊢; omega) (by omega) hstep hnestep
    simp only [hcond, if_false, noCancel, hex, Bool.false_eq_true, ihx]
    simp [pageList]

/-- If the source decodes non-empty pages before page `P` and an empty
page at `P`, with no max bound and no cancellation the search loop emits
the stamped non-empty pages, then the empty page exactly as decoded
(without stamping it), and exits. -/
theorem searchRun_empty_end (source : PhotoSearchQuery → FetchOutcome (PhotoPage α))
    (pg : Int → PhotoPage α) (pgP : PhotoPage α) (P : Int) (k : Nat) :
    ∀ (fuel : Nat) (ps : PhotoSearch),
      ps.maxPageNumber ≤ 0 →
      ps.pageNumber + k = P →
      k < fuel →
      (∀ q : Int, ps.pageNumber ≤ q → q < P →
        source ({ ps with pageNumber := q } : PhotoSearch).toQuery = .ok (pg q)) →
      (∀ q : Int, ps.pageNumber ≤ q → q < P → (pg q).photos ≠ []) →
      source ({ ps with pageNumber := P } : PhotoSearch).toQuery = .ok pgP →
      pgP.photos = [] →
      searchRun source noCancel ps fuel =
        ⟨(pageList ps.pageNumber k).map (fun q => { pg q with pageNumber := q }) ++ [pgP],
         pageList ps.pageNumber (k + 1), true⟩ := by
  induction k with
  | zero =>
    intro fuel ps hmax hpk hfuel hsrc hne hP hPempty
    obtain ⟨f, rfl⟩ : ∃ f, fuel = f + 1 := ⟨fuel - 1, by omega⟩
    have hPeq : ({ ps with pageNumber := P } : PhotoSearch) = ps := by
      have : P = ps.pageNumber := by push_cast at hpk; omega
      rw [this]
    rw [hPeq] at hP
    rw [searchRun_ok_step source noCancel ps f _ hP]
    have hcond : pgP.photos.length < 1 := by
      simp [hPempty]
    simp [hcond, pageList]
  | succ k ih =>
    intro fuel ps hmax hpk hfuel hsrc hne hP hPempty
    obtain ⟨f, rfl⟩ : ∃ f, fuel = f + 1 := ⟨fuel - 1, by omega⟩
    have hlt : ps.pageNumber < P := by push_cast at hpk; omega
    have h0 : source ps.toQuery = .ok (pg ps.pageNumber) :=
      hsrc ps.pageNumber le_rfl hlt
    rw [searchRun_ok_step source noCancel ps f _ h0]
    have hcond : ¬((pg ps.pageNumber).photos.length < 1) := by
      simp only [Nat.lt_one_iff, List.length_eq_zero]
      exact hne ps.pageNumber le_rfl hlt
    have hex : pageExceeds ps.maxPageNumber ps.pageNumber = false :=
      pageExceeds_nonpos _ _ hmax
    have hstep : ∀ q : Int,
        ({ ps with pageNumber := ps.pageNumber + 1 } : PhotoSearch).pageNumber ≤ q →
        q < P →
        source ({ ps with pageNumber := q } : PhotoSearch).toQuery = .ok (pg q) := by
      intro q hq1 hq2
      have hq1x : ps.pageNumber + 1 ≤ q := hq1
      exact hsrc q (by omega) hq2
    have hnestep : ∀ q : Int,
        ({ ps with pageNumber := ps.pageNumber + 1 } : PhotoSearch).pageNumber ≤ q →
        q < P → (pg q).photos ≠ [] := by
      intro q hq1 hq2
      have hq1x : ps.pageNumber + 1 ≤ q := hq1
      exact hne q (by omega) hq2
    have ihx := ih f { ps with pageNumber := ps.pageNumber + 1 } hmax
      (by push_cast at hpk ⊢; omega) (by omega) hstep hnestep hP hPempty
    simp only [hcond, if_false, noCancel, hex, Bool.false_eq_true, ihx]
    simp [pageList]

/-- If the source decodes non-empty pages before page `P` and the
pipeline fails at `P`, with no max bound and no cancellation the search
loop emits the stamped pages before `P`, then a zero-value page carrying
only the error, and exits. -/
theorem searchRun_err_segment (source : PhotoSearchQuery → FetchOutcome (PhotoPage α))
    (pg : Int → PhotoPage α) (e : String) (P : Int) (k : Nat) :
    ∀ (fuel : Nat) (ps : PhotoSearch),
      ps.maxPageNumber ≤ 0 →
      ps.pageNumber + k = P →
      k < fuel →
      (∀ q : Int, ps.pageNumber ≤ q → q < P →
        source ({ ps with pageNumber := q } : PhotoSearch).toQuery = .ok (pg q)) →
      (∀ q : Int, ps.pageNumber ≤ q → q < P → (pg q).photos ≠ []) →
      (source ({ ps with pageNumber := P } : PhotoSearch).toQuery).failMsg = some e →
      searchRun source noCancel ps fuel =
        ⟨(pageList ps.pageNumber k).map (fun q => { pg q with pageNumber := q })
           ++ [errPhotoPage e],
         pageList ps.pageNumber (k + 1), true⟩ := by
  induction k with
  | zero =>
    intro fuel ps hmax hpk hfuel hsrc hne hfail
    obtain ⟨f, rfl⟩ : ∃ f, fuel = f + 1 := ⟨fuel - 1, by omega⟩
    have hPeq : ({ ps with pageNumber := P } : PhotoSearch) = ps := by
      have : P = ps.pageNumber := by push_cast at hpk; omega
      rw [this]
    rw [hPeq] at hfail
    rw [searchRun_fail source noCancel ps f e hfail]
    simp [pageList]
  | succ k ih =>
    intro fuel ps hmax hpk hfuel hsrc hne hfail
    obtain ⟨f, rfl⟩ : ∃ f, fuel = f + 1 := ⟨fuel - 1, by omega⟩
    have hlt : ps.pageNumber < P := by push_cast at hpk; omega
    have h0 : source ps.toQuery = .ok (pg ps.pageNumber) :=
      hsrc ps.pageNumber le_rfl hlt
    rw [searchRun_ok_step source noCancel ps f _ h0]
    have hcond : ¬((pg ps.pageNumber).photos.length < 1) := by
      simp only [Nat.lt_one_iff, List.length_eq_zero]
      exact hne ps.pageNumber le_rfl hlt
    have hex : pageExceeds ps.maxPageNumber ps.pageNumber = false :=
      pageExceeds_nonpos _ _ hmax
    have hstep : ∀ q : Int,
        ({ ps with pageNumber := ps.pageNumber + 1 } : PhotoSearch).pageNumber ≤ q →
        q < P →
        source ({ ps with pageNumber := q } : PhotoSearch).toQuery = .ok (pg q) := by
      intro q hq1 hq2
      have hq1x : ps.pageNumber + 1 ≤ q := hq1
      exact hsrc q (by omega) hq2
    have hnestep : ∀ q : Int,
        ({ ps with pageNumber := ps.pageNumber + 1 } : PhotoSearch).pageNumber ≤ q →
        q < P → (pg q).photos ≠ [] := by
      intro q hq1 hq2
      have hq1x : ps.pageNumber + 1 ≤ q := hq1
      exact hne q (by omega) hq2
    have ihx := ih f { ps with pageNumber := ps.pageNumber + 1 } hmax
      (by push_cast at hpk ⊢; omega) (by omega) hstep hnestep hfail
    simp only [hcond, if_false, noCancel, hex, Bool.false_eq_true, ihx]
    simp [pageList]

/-- With a positive max-page bound, a source that decodes non-empty
comment pages and no cancellation, the comments loop emits the decoded
pages (unmodified) from the current page up to the bound, then exits. -/
theorem commentsRun_bounded (source : String → commentsPager → FetchOutcome (CommentsPage α))
    (pg : Int → CommentsPage α) (pid : String) (m : Int) (k : Nat) :
    ∀ (fuel : Nat) (cp : commentsPager),
      1 ≤ m →
      cp.pageNumber + k = m →
      k < fuel →
      (∀ q : Int, cp.pageNumber ≤ q → q ≤ m →
        source pid ({ cp with pageNumber := q } : commentsPager) = .ok (pg q)) →
      (∀ q : Int, cp.pageNumber ≤ q → q ≤ m → (pg q).comments ≠ []) →
      commentsRun source noCancel pid m cp fuel =
        ⟨(pageList cp.pageNumber (k + 1)).map pg, pageList cp.pageNumber (k + 1), true⟩ := by
  induction k with
  | zero =>
    intro fuel cp hm hpk hfuel hsrc hne
    obtain ⟨f, rfl⟩ : ∃ f, fuel = f + 1 := ⟨fuel - 1, by omega⟩
    have h0 : source pid cp = .ok (pg cp.pageNumber) :=
      hsrc cp.pageNumber le_rfl (by omega)
    rw [commentsRun_ok_step source noCancel pid m cp f _ h0]
    have hcond : ¬((pg cp.pageNumber).comments.length < 1) := by
      simp only [Nat.lt_one_iff, List.length_eq_zero]
      exact hne cp.pageNumber le_rfl (by omega)
    have hex : pageExceeds m cp.pageNumber = true := by
      rw [pageExceeds_pos _ _ hm]
      simp
      omega
    simp [hcond, noCancel, hex, pageList]
  | succ k ih =>
    intro fuel cp hm hpk hfuel hsrc hne
    obtain ⟨f, rfl⟩ : ∃ f, fuel = f + 1 := ⟨fuel - 1, by omega⟩
    have h0 : source pid cp = .ok (pg cp.pageNumber) :=
      hsrc cp.pageNumber le_rfl (by omega)
    rw [commentsRun_ok_step source noCancel pid m cp f _ h0]
    have hcond : ¬((pg cp.pageNumber).comments.length < 1) := by
      simp only [Nat.lt_one_iff, List.length_eq_zero]
      exact hne cp.pageNumber le_rfl (by omega)
    have hex : pageExceeds m cp.pageNumber = false := by
      rw [pageExceeds_pos _ _ hm]
      simp
      omega
    have hstep : ∀ q : Int,
        ({ cp with pageNumber := cp.pageNumber + 1 } : commentsPager).pageNumber ≤ q →
        q ≤ m →
        source pid ({ cp with pageNumber := q } : commentsPager) = .ok (pg q) := by
      intro q hq1 hq2
      have hq1x : cp.pageNumber + 1 ≤ q := hq1
      exact hsrc q (by omega) hq2
    have hnestep : ∀ q : Int,
        ({ cp with pageNumber := cp.pageNumber + 1 } : commentsPager).pageNumber ≤ q →
        q ≤ m → (pg q).comments ≠ [] := by
      intro q hq1 hq2
      have hq1x : cp.pageNumber + 1 ≤ q := hq1
      exact hne q (by omega) hq2
    have ihx := ih f { cp with pageNumber := cp.pageNumber + 1 } hm
      (by push_cast at hpk ⊢; omega) (by omega) hstep hnestep
    simp only [hcond, if_false, noCancel, hex, Bool.false_eq_true, ihx]
    simp [pageList]

/-- If the source decodes non-empty comment pages before page `P` and an
empty one at `P`, with no max bound and no cancellation the comments
loop emits the pages before `P` and exits WITHOUT emitting the empty
page: the iteration for `P` runs (it is fetched) but sends nothing. -/
theorem commentsRun_empty_end (source : String → commentsPager → FetchOutcome (CommentsPage α))
    (pg : Int → CommentsPage α) (pgP : CommentsPage α) (pid : String) (m P : Int) (k : Nat) :
    ∀ (fuel : Nat) (cp : commentsPager),
      m ≤ 0 →
      cp.pageNumber + k = P →
      k < fuel →
      (∀ q : Int, cp.pageNumber ≤ q → q < P →
        source pid ({ cp with pageNumber := q } : commentsPager) = .ok (pg q)) →
      (∀ q : Int, cp.pageNumber ≤ q → q < P → (pg q).comments ≠ []) →
      source pid ({ cp with pageNumber := P } : commentsPager) = .ok pgP →
      pgP.comments = [] →
      commentsRun source noCancel pid m cp fuel =
        ⟨(pageList cp.pageNumber k).map pg, pageList cp.pageNumber (k + 1), true⟩ := by
  induction k with
  | zero =>
    intro fuel cp hmax hpk hfuel hsrc hne hP hPempty
    obtain ⟨f, rfl⟩ : ∃ f, fuel = f + 1 := ⟨fuel - 1, by omega⟩
    have hPeq : ({ cp with pageNumber := P } : commentsPager) = cp := by
      have : P = cp.pageNumber := by push_cast at hpk; omega
      rw [this]
    rw [hPeq] at hP
    rw [commentsRun_ok_step source noCancel pid m cp f _ hP]
    have hcond : pgP.comments.length < 1 := by
      simp [hPempty]
    simp [hcond, pageList]
  | succ k ih =>
    intro fuel cp hmax hpk hfuel hsrc hne hP hPempty
    obtain ⟨f, rfl⟩ : ∃ f, fuel = f + 1 := ⟨fuel - 1, by omega⟩
    have hlt : cp.pageNumber < P := by push_cast at hpk; omega
    have h0 : source pid cp = .ok (pg cp.pageNumber) :=
      hsrc cp.pageNumber le_rfl hlt
    rw [commentsRun_ok_step source noCancel pid m cp f _ h0]
    have hcond : ¬((pg cp.pageNumber).comments.length < 1) := by
      simp only [Nat.lt_one_iff, List.length_eq_zero]
      exact hne cp.pageNumber le_rfl hlt
    have hex : pageExceeds m cp.pageNumber = false :=
      pageExceeds_nonpos _ _ hmax
    have hstep : ∀ q : Int,
        ({ cp with pageNumber := cp.pageNumber + 1 } : commentsPager).pageNumber ≤ q →
        q < P →
        source pid ({ cp with pageNumber := q } : commentsPager) = .ok (pg q) := by
      intro q hq1 hq2
      have hq1x : cp.pageNumber + 1 ≤ q := hq1
      exact hsrc q (by omega) hq2
    have hnestep : ∀ q : Int,
        ({ cp with pageNumber := cp.pageNumber + 1 } : commentsPager).pageNumber ≤ q →
        q < P → (pg q).comments ≠ [] := by
      intro q hq1 hq2
      have hq1x : cp.pageNumber + 1 ≤ q := hq1
      exact hne q (by omega) hq2
    have ihx := ih f { cp with pageNumber := cp.pageNumber + 1 } hmax
      (by push_cast at hpk ⊢; omega) (by omega) hstep hnestep hP hPempty
    simp only [hcond, if_false, noCancel, hex, Bool.false_eq_true, ihx]
    simp [pageList]

/-- If the source decodes non-empty comment pages before page `P` and
the pipeline fails at `P`, with no max bound and no cancellation the
comments loop emits the pages before `P`, then a zero-value page
carrying only the error, and exits. -/
theorem commentsRun_err_segment (source : String → commentsPager → FetchOutcome (CommentsPage α))
    (pg : Int → CommentsPage α) (pid : String) (e : String) (m P : Int) (k : Nat) :
    ∀ (fuel : Nat) (cp : commentsPager),
      m ≤ 0 →
      cp.pageNumber + k = P →
      k < fuel →
      (∀ q : Int, cp.pageNumber ≤ q → q < P →
        source pid ({ cp with pageNumber := q } : commentsPager) = .ok (pg q)) →
      (∀ q : Int, cp.pageNumber ≤ q → q < P → (pg q).comments ≠ []) →
      (source pid ({ cp with pageNumber := P } : commentsPager)).failMsg = some e →
      commentsRun source noCancel pid m cp fuel =
        ⟨(pageList cp.pageNumber k).map pg ++ [errCommentsPage e],
         pageList cp.pageNumber (k + 1), true⟩ := by
  induction k with
  | zero =>
    intro fuel cp hmax hpk hfuel hsrc hne hfail
    obtain ⟨f, rfl⟩ : ∃ f, fuel = f + 1 := ⟨fuel - 1, by omega⟩
    have hPeq : ({ cp with pageNumber := P } : commentsPager) = cp := by
      have : P = cp.pageNumber := by push_cast at hpk; omega
      rw [this]
    rw [hPeq] at hfail
    rw [commentsRun_fail source noCancel pid m cp f e hfail]
    simp [pageList]
  | succ k ih =>
    intro fuel cp hmax hpk hfuel hsrc hne hfail
    obtain ⟨f, rfl⟩ : ∃ f, fuel = f + 1 := ⟨fuel - 1, by omega⟩
    have hlt : cp.pageNumber < P := by push_cast at hpk; omega
    have h0 : source pid cp = .ok (pg cp.pageNumber) :=
      hsrc cp.pageNumber le_rfl hlt
    rw [commentsRun_ok_step source noCancel pid m cp f _ h0]
    have hcond : ¬((pg cp.pageNumber).comments.length < 1) := by
      simp only [Nat.lt_one_iff, List.length_eq_zero]
      exact hne cp.pageNumber le_rfl hlt
    have hex : pageExceeds m cp.pageNumber = false :=
      pageExceeds_nonpos _ _ hmax
    have hstep : ∀ q : Int,
        ({ cp with pageNumber := cp.pageNumber + 1 } : commentsPager).pageNumber ≤ q →
        q < P →
        source pid ({ cp with pageNumber := q } : commentsPager) = .ok (pg q) := by
      intro q hq1 hq2
      have hq1x : cp.pageNumber + 1 ≤ q := hq1
      exact hsrc q (by omega) hq2
    have hnestep : ∀ q : Int,
        ({ cp with pageNumber := cp.pageNumber + 1 } : commentsPager).pageNumber ≤ q →
        q < P → (pg q).comments ≠ [] := by
      intro q hq1 hq2
      have hq1x : cp.pageNumber + 1 ≤ q := hq1
      exact hne q (by omega) hq2
    have ihx := ih f { cp with pageNumber := cp.pageNumber + 1 } hmax
      (by push_cast at hpk ⊢; omega) (by omega) hstep hnestep hfail
    simp only [hcond, if_false, noCancel, hex, Bool.false_eq_true, ihx]
    simp [pageList]

/-- The list loop's behaviour depends on the request only through its
query view, its current page number and the behaviour of the
`pageExceeds` bound check. -/
theorem listRun_congr (source : PhotoRequestQuery → FetchOutcome (PhotoPage α))
    (c : Int → Bool) (fuel : Nat) :
    ∀ (p1 p2 : PhotoRequest),
      p1.toQuery = p2.toQuery →
      p1.pageNumber = p2.pageNumber →
      (∀ q : Int, pageExceeds p1.maxPageNumber q = pageExceeds p2.maxPageNumber q) →
      listRun source c p1 fuel = listRun source c p2 fuel := by
  induction fuel with
  | zero => intro p1 p2 hq hpn hex; rfl
  | succ fuel ih =>
    intro p1 p2 hq hpn hex
    cases hs : source p1.toQuery with
    | failQuery e =>
      rw [listRun_fail source c p1 fuel e (by rw [hs]; rfl),
        listRun_fail source c p2 fuel e (by rw [← hq, hs]; rfl), hpn]
    | failRequest e =>
      rw [listRun_fail source c p1 fuel e (by rw [hs]; rfl),
        listRun_fail source c p2 fuel e (by rw [← hq, hs]; rfl), hpn]
    | failTransport e =>
      rw [listRun_fail source c p1 fuel e (by rw [hs]; rfl),
        listRun_fail source c p2 fuel e (by rw [← hq, hs]; rfl), hpn]
    | failDecode e =>
      rw [listRun_fail source c p1 fuel e (by rw [hs]; rfl),
        listRun_fail source c p2 fuel e (by rw [← hq, hs]; rfl), hpn]
    | ok pp0 =>
      rw [listRun_ok_step source c p1 fuel pp0 hs,
        listRun_ok_step source c p2 fuel pp0 (by rw [← hq, hs])]
      have hrec := ih { p1 with pageNumber := p1.pageNumber + 1 }
        { p2 with pageNumber := p2.pageNumber + 1 }
        (by
          have h1 : ({ p1 with pageNumber := p1.pageNumber + 1 } : PhotoRequest).toQuery =
              { p1.toQuery with page := p1.pageNumber + 1 } := rfl
          have h2 : ({ p2 with pageNumber := p2.pageNumber + 1 } : PhotoRequest).toQuery =
              { p2.toQuery with page := p2.pageNumber + 1 } := rfl
          rw [h1, h2, hq, hpn])
        (by simp [hpn]) hex
      rw [hpn] at hrec
      simp only [hpn, hrec, hex p2.pageNumber]

/-- The search loop's behaviour depends on the request only through its
query view, its current page number and the `pageExceeds` behaviour. -/
theorem searchRun_congr (source : PhotoSearchQuery → FetchOutcome (PhotoPage α))
    (c : Int → Bool) (fuel : Nat) :
    ∀ (p1 p2 : PhotoSearch),
      p1.toQuery = p2.toQuery →
      p1.pageNumber = p2.pageNumber →
      (∀ q : Int, pageExceeds p1.maxPageNumber q = pageExceeds p2.maxPageNumber q) →
      searchRun source c p1 fuel = searchRun source c p2 fuel := by
  induction fuel with
  | zero => intro p1 p2 hq hpn hex; rfl
  | succ fuel ih =>
    intro p1 p2 hq hpn hex
    cases hs : source p1.toQuery with
    | failQuery e =>
      rw [searchRun_fail source c p1 fuel e (by rw [hs]; rfl),
        searchRun_fail source c p2 fuel e (by rw [← hq, hs]; rfl), hpn]
    | failRequest e =>
      rw [searchRun_fail source c p1 fuel e (by rw [hs]; rfl),
        searchRun_fail source c p2 fuel e (by rw [← hq, hs]; rfl), hpn]
    | failTransport e =>
      rw [searchRun_fail source c p1 fuel e (by rw [hs]; rfl),
        searchRun_fail source c p2 fuel e (by rw [← hq, hs]; rfl), hpn]
    | failDecode e =>
      rw [searchRun_fail source c p1 fuel e (by rw [hs]; rfl),
        searchRun_fail source c p2 fuel e (by rw [← hq, hs]; rfl), hpn]
    | ok pp0 =>
      rw [searchRun_ok_step source c p1 fuel pp0 hs,
        searchRun_ok_step source c p2 fuel pp0 (by rw [← hq, hs])]
      have hrec := ih { p1 with pageNumber := p1.pageNumber + 1 }
        { p2 with pageNumber := p2.pageNumber + 1 }
        (by
          have h1 : ({ p1 with pageNumber := p1.pageNumber + 1 } : PhotoSearch).toQuery =
              { p1.toQuery with page := p1.pageNumber + 1 } := rfl
          have h2 : ({ p2 with pageNumber := p2.pageNumber + 1 } : PhotoSearch).toQuery =
              { p2.toQuery with page := p2.pageNumber + 1 } := rfl
          rw [h1, h2, hq, hpn])
        (by simp [hpn]) hex
      rw [hpn] at hrec
      simp only [hpn, hrec, hex p2.pageNumber]

/-- The comments loop's behaviour depends on the max-page bound only
through the `pageExceeds` check. -/
theorem commentsRun_congr (source : String → commentsPager → FetchOutcome (CommentsPage α))
    (c : Int → Bool) (pid : String) (m1 m2 : Int)
    (hex : ∀ q : Int, pageExceeds m1 q = pageExceeds m2 q) (fuel : Nat) :
    ∀ (cp : commentsPager),
      commentsRun source c pid m1 cp fuel = commentsRun source c pid m2 cp fuel := by
  induction fuel with
  | zero => intro cp; rfl
  | succ fuel ih =>
    intro cp
    cases hs : source pid cp with
    | failQuery e =>
      rw [commentsRun_fail source c pid m1 cp fuel e (by rw [hs]; rfl),
        commentsRun_fail source c pid m2 cp fuel e (by rw [hs]; rfl)]
    | failRequest e =>
      rw [commentsRun_fail source c pid m1 cp fuel e (by rw [hs]; rfl),
        commentsRun_fail source c pid m2 cp fuel e (by rw [hs]; rfl)]
    | failTransport e =>
      rw [commentsRun_fail source c pid m1 cp fuel e (by rw [hs]; rfl),
        commentsRun_fail source c pid m2 cp fuel e (by rw [hs]; rfl)]
    | failDecode e =>
      rw [commentsRun_fail source c pid m1 cp fuel e (by rw [hs]; rfl),
        commentsRun_fail source c pid m2 cp fuel e (by rw [hs]; rfl)]
    | ok cpage =>
      rw [commentsRun_ok_step source c pid m1 cp fuel cpage hs,
        commentsRun_ok_step source c pid m2 cp fuel cpage hs]
      simp only [hex cp.pageNumber, ih { cp with pageNumber := cp.pageNumber + 1 }]

/-- State of a Go channel used purely as a close-signal. -/
inductive ChanState where
  | opened
  | closed
  deriving DecidableEq

/-- Go `close(ch)`: closing an already-closed channel is a runtime
panic, modelled as the `error` branch. -/
def closeChan : ChanState → Except String ChanState
  | .opened => .ok .closed
  | .closed => .error "close of closed channel"

/-- The state owned by `makeCanceler`: the `sync.Once` flag and the
cancel channel. -/
structure Canceler where
  onceDone : Bool
  ch : ChanState
  deriving DecidableEq

/-- `makeCanceler`'s initial state: fresh `sync.Once`, open channel. -/
def makeCanceler : Canceler := ⟨false, ChanState.opened⟩

/-- The returned `cancelFn`: `cancelOnce.Do(func() { close(cancelChan) })`.
When the once already ran this is a no-op; otherwise it closes the
channel and marks the once done.  A panic inside the closure would
surface as the `error` branch. -/
def cancelFn (cl : Canceler) : Except String Canceler :=
  if cl.onceDone then .ok cl
  else
    match closeChan cl.ch with
    | .ok ch2 => .ok ⟨true, ch2⟩
    | .error e => .error e

/-- The canceler state after `n` successive calls of the cancel
function, starting from a fresh `makeCanceler`. -/
def cancelCalls : Nat → Except String Canceler
  | 0 => .ok makeCanceler
  | Nat.succ n => (cancelCalls n).bind cancelFn

/-- The engine's wait step: the `select` receives from the cancel
channel exactly when it is closed (otherwise the throttle timer wins). -/
def selectCancelled : ChanState → Bool
  | .closed => true
  | .opened => false

/-- The `ListPhotos` call with the caller's request modelled as an
explicit mutable cell: `caller` is the caller's object, `preq` the
engine's private copy.  Between loop iterations the caller may overwrite
its own object (`mu`, given the page number just emitted); the loop
body only ever reads and writes the private copy.  Returns the trace
together with the final contents of the caller's cell. -/
def listRunMut (source : PhotoRequestQuery → FetchOutcome (PhotoPage α))
    (c : Int → Bool) (mu : Int → PhotoRequest → PhotoRequest) :
    PhotoRequest → PhotoRequest → Nat → RunTrace (PhotoPage α) × PhotoRequest
  | caller, _, 0 => (⟨[], [], false⟩, caller)
  | caller, preq, Nat.succ fuel =>
    match source preq.toQuery with
    | .failQuery e => (⟨[errPhotoPage e], [preq.pageNumber], true⟩, caller)
    | .failRequest e => (⟨[errPhotoPage e], [preq.pageNumber], true⟩, caller)
    | .failTransport e => (⟨[errPhotoPage e], [preq.pageNumber], true⟩, caller)
    | .failDecode e => (⟨[errPhotoPage e], [preq.pageNumber], true⟩, caller)
    | .ok pp0 =>
      let pp := { pp0 with pageNumber := preq.pageNumber }
      if c preq.pageNumber then (⟨[pp], [preq.pageNumber], true⟩, caller)
      else if pageExceeds preq.maxPageNumber preq.pageNumber then
        (⟨[pp], [preq.pageNumber], true⟩, caller)
      else
        let next := listRunMut source c mu (mu preq.pageNumber caller)
          { preq with pageNumber := preq.pageNumber + 1 } fuel
        (⟨pp :: next.1.emitted, preq.pageNumber :: next.1.fetched, next.1.finished⟩, next.2)

/-- `SearchPhotos` with the caller's request as an explicit cell. -/
def searchRunMut (source : PhotoSearchQuery → FetchOutcome (PhotoPage α))
    (c : Int → Bool) (mu : Int → PhotoSearch → PhotoSearch) :
    PhotoSearch → PhotoSearch → Nat → RunTrace (PhotoPage α) × PhotoSearch
  | caller, _, 0 => (⟨[], [], false⟩, caller)
  | caller, ps, Nat.succ fuel =>
    match source ps.toQuery with
    | .failQuery e => (⟨[errPhotoPage e], [ps.pageNumber], true⟩, caller)
    | .failRequest e => (⟨[errPhotoPage e], [ps.pageNumber], true⟩, caller)
    | .failTransport e => (⟨[errPhotoPage e], [ps.pageNumber], true⟩, caller)
    | .failDecode e => (⟨[errPhotoPage e], [ps.pageNumber], true⟩, caller)
    | .ok pp0 =>
      if pp0.photos.length < 1 then (⟨[pp0], [ps.pageNumber], true⟩, caller)
      else
        let pp := { pp0 with pageNumber := ps.pageNumber }
        if c ps.pageNumber then (⟨[pp], [ps.pageNumber], true⟩, caller)
        else if pageExceeds ps.maxPageNumber ps.pageNumber then
          (⟨[pp], [ps.pageNumber], true⟩, caller)
        else
          let next := searchRunMut source c mu (mu ps.pageNumber caller)
            { ps with pageNumber := ps.pageNumber + 1 } fuel
          (⟨pp :: next.1.emitted, ps.pageNumber :: next.1.fetched, next.1.finished⟩, next.2)

/-- `CommentsForPhoto` with the caller's request as an explicit cell. -/
def commentsRunMut (source : String → commentsPager → FetchOutcome (CommentsPage α))
    (c : Int → Bool) (mu : Int → CommentsRequest → CommentsRequest)
    (pid : String) (m : Int) :
    CommentsRequest → commentsPager → Nat → RunTrace (CommentsPage α) × CommentsRequest
  | caller, _, 0 => (⟨[], [], false⟩, caller)
  | caller, cp, Nat.succ fuel =>
    match source pid cp with
    | .failQuery e => (⟨[errCommentsPage e], [cp.pageNumber], true⟩, caller)
    | .failRequest e => (⟨[errCommentsPage e], [cp.pageNumber], true⟩, caller)
    | .failTransport e => (⟨[errCommentsPage e], [cp.pageNumber], true⟩, caller)
    | .failDecode e => (⟨[errCommentsPage e], [cp.pageNumber], true⟩, caller)
    | .ok cpage =>
      if cpage.comments.length < 1 then (⟨[], [cp.pageNumber], true⟩, caller)
      else if c cp.pageNumber then (⟨[cpage], [cp.pageNumber], true⟩, caller)
      else if pageExceeds m cp.pageNumber then (⟨[cpage], [cp.pageNumber], true⟩, caller)
      else
        let next := commentsRunMut source c mu pid m (mu cp.pageNumber caller)
          { cp with pageNumber := cp.pageNumber + 1 } fuel
        (⟨cpage :: next.1.emitted, cp.pageNumber :: next.1.fetched, next.1.finished⟩, next.2)

/-- The trace of the list loop is independent of the caller's cell and
of whatever mutations the caller applies to it while the loop runs. -/
theorem listRunMut_trace (source : PhotoRequestQuery → FetchOutcome (PhotoPage α))
    (c : Int → Bool) (mu : Int → PhotoRequest → PhotoRequest) :
    ∀ (fuel : Nat) (caller preq : PhotoRequest),
      (listRunMut source c mu caller preq fuel).1 = listRun source c preq fuel := by
  intro fuel
  induction fuel with
  | zero => intro caller preq; rfl
  | succ fuel ih =>
    intro caller preq
    rw [listRunMut, listRun]
    cases hs : source preq.toQuery <;> simp only []
    case ok pp0 =>
      by_cases hc : c preq.pageNumber
      · simp [hc]
      · by_cases hex : pageExceeds preq.maxPageNumber preq.pageNumber
        · simp [hc, hex]
        · simp [hc, hex, ih]

/-- The list loop never writes the caller's cell: if the caller applies
no mutation of its own, the cell still holds the original request when
the loop ends.  In particular the engine-side normalization happened
only on the private copy. -/
theorem listRunMut_caller (source : PhotoRequestQuery → FetchOutcome (PhotoPage α))
    (c : Int → Bool) :
    ∀ (fuel : Nat) (caller preq : PhotoRequest),
      (listRunMut source c (fun _ r => r) caller preq fuel).2 = caller := by
  intro fuel
  induction fuel with
  | zero => intro caller preq; rfl
  | succ fuel ih =>
    intro caller preq
    rw [listRunMut]
    cases hs : source preq.toQuery <;> simp only []
    case ok pp0 =>
      by_cases hc : c preq.pageNumber
      · simp [hc]
      · by_cases hex : pageExceeds preq.maxPageNumber preq.pageNumber
        · simp [hc, hex]
        · simp [hc, hex, ih]

/-- The trace of the search loop is independent of the caller's cell
and its mutations. -/
theorem searchRunMut_trace (source : PhotoSearchQuery → FetchOutcome (PhotoPage α))
    (c : Int → Bool) (mu : Int → PhotoSearch → PhotoSearch) :
    ∀ (fuel : Nat) (caller ps : PhotoSearch),
      (searchRunMut source c mu caller ps fuel).1 = searchRun source c ps fuel := by
  intro fuel
  induction fuel with
  | zero => intro caller ps; rfl
  | succ fuel ih =>
    intro caller ps
    rw [searchRunMut, searchRun]
    cases hs : source ps.toQuery <;> simp only []
    case ok pp0 =>
      by_cases hemp : pp0.photos.length < 1
      · simp [hemp]
      · by_cases hc : c ps.pageNumber
        · simp [hemp, hc]
        · by_cases hex : pageExceeds ps.maxPageNumber ps.pageNumber
          · simp [hemp, hc, hex]
          · simp [hemp, hc, hex, ih]

/-- The search loop never writes the caller's cell. -/
theorem searchRunMut_caller (source : PhotoSearchQuery → FetchOutcome (PhotoPage α))
    (c : Int → Bool) :
    ∀ (fuel : Nat) (caller ps : PhotoSearch),
      (searchRunMut source c (fun _ r => r) caller ps fuel).2 = caller := by
  intro fuel
  induction fuel with
  | zero => intro caller ps; rfl
  | succ fuel ih =>
    intro caller ps
    rw [searchRunMut]
    cases hs : source ps.toQuery <;> simp only []
    case ok pp0 =>
      by_cases hemp : pp0.photos.length < 1
      · simp [hemp]
      · by_cases hc : c ps.pageNumber
        · simp [hemp, hc]
        · by_cases hex : pageExceeds ps.maxPageNumber ps.pageNumber
          · simp [hemp, hc, hex]
          · simp [hemp, hc, hex, ih]

/-- The trace of the comments loop is independent of the caller's cell
and its mutations. -/
theorem commentsRunMut_trace (source : String → commentsPager → FetchOutcome (CommentsPage α))
    (c : Int → Bool) (mu : Int → CommentsRequest → CommentsRequest)
    (pid : String) (m : Int) :
    ∀ (fuel : Nat) (caller : CommentsRequest) (cp : commentsPager),
      (commentsRunMut source c mu pid m caller cp fuel).1 =
        commentsRun source c pid m cp fuel := by
  intro fuel
  induction fuel with
  | zero => intro caller cp; rfl
  | succ fuel ih =>
    intro caller cp
    rw [commentsRunMut, commentsRun]
    cases hs : source pid cp <;> simp only []
    case ok cpage =>
      by_cases hemp : cpage.comments.length < 1
      · simp [hemp]
      · by_cases hc : c cp.pageNumber
        · simp [hemp, hc]
        · by_cases hex : pageExceeds m cp.pageNumber
          · simp [hemp, hc, hex]
          · simp [hemp, hc, hex, ih]

/-- The comments loop never writes the caller's cell. -/
theorem commentsRunMut_caller (source : String → commentsPager → FetchOutcome (CommentsPage α))
    (c : Int → Bool) (pid : String) (m : Int) :
    ∀ (fuel : Nat) (caller : CommentsRequest) (cp : commentsPager),
      (commentsRunMut source c (fun _ r => r) pid m caller cp fuel).2 = caller := by
  intro fuel
  induction fuel with
  | zero => intro caller cp; rfl
  | succ fuel ih =>
    intro caller cp
    rw [commentsRunMut]
    cases hs : source pid cp <;> simp only []
    case ok cpage =>
      by_cases hemp : cpage.comments.length < 1
      · simp [hemp]
      · by_cases hc : c cp.pageNumber
        · simp [hemp, hc]
        · by_cases hex : pageExceeds m cp.pageNumber
          · simp [hemp, hc, hex]
          · simp [hemp, hc, hex, ih]

/-! Concrete sample data used to instantiate the claim theorems. -/

/-- A decoded photo page holding one item and no page number (as when
the server response omits it). -/
def onePhotoPage : PhotoPage Nat := ⟨"", [], 0, 0, 0, [0], none, 0⟩

/-- A decoded photo page with an empty item collection. -/
def noPhotosPage : PhotoPage Nat := ⟨"", [], 0, 0, 0, [], none, 0⟩

/-- A decoded comments page holding one comment; its `current_page`
field was absent from the response, so it decoded to 0. -/
def oneCommentsPage : CommentsPage Nat := ⟨"photo", 0, 0, 0, [0], none⟩

/-- A decoded comments page with an empty comment collection. -/
def noCommentsPage : CommentsPage Nat := ⟨"photo", 0, 0, 0, [], none⟩

/-- A well-formed list request: feature "popular", defaults elsewhere. -/
def sampleList : PhotoRequest := ⟨"popular", "", "", "", "", "", 0, "", [], 1, 20, 0⟩

/-- The list request of the spec's worked example: feature "popular",
10 items per page, max page number 2 (page number left at zero). -/
def exampleList : PhotoRequest := ⟨"popular", "", "", "", "", "", 0, "", [], 0, 10, 2⟩

/-- A well-formed search request: term "the universe", page 1. -/
def sampleSearch : PhotoSearch := ⟨"the universe", "", "", "", false, 1, 10, [], "", [], [], "", 0⟩

/-- A well-formed comments request. -/
def sampleComments : CommentsRequest := ⟨"id1", 1, false, 0⟩

/-- List source: page 1 decodes with one photo, later pages decode with
an empty collection. -/
def listSrcEmptyAt2 : PhotoRequestQuery → FetchOutcome (PhotoPage Nat) :=
  fun qv => if qv.page = 1 then .ok onePhotoPage else .ok noPhotosPage

/-- List source: every page decodes with one photo. -/
def listSrcAllOk : PhotoRequestQuery → FetchOutcome (PhotoPage Nat) :=
  fun _ => .ok onePhotoPage

/-- List source: pages before 2 decode, page 2 fails in transport. -/
def listSrcFailAt2 : PhotoRequestQuery → FetchOutcome (PhotoPage Nat) :=
  fun qv => if qv.page < 2 then .ok onePhotoPage else .failTransport "network down"

/-- Search source: pages before 2 decode with one photo, page 2 decodes
with an empty collection. -/
def searchSrcEmptyAt2 : PhotoSearchQuery → FetchOutcome (PhotoPage Nat) :=
  fun qv => if qv.page < 2 then .ok onePhotoPage else .ok noPhotosPage

/-- Search source: every page decodes with one photo. -/
def searchSrcAllOk : PhotoSearchQuery → FetchOutcome (PhotoPage Nat) :=
  fun _ => .ok onePhotoPage

/-- Search source: pages before 2 decode, page 2 fails to decode. -/
def searchSrcFailAt2 : PhotoSearchQuery → FetchOutcome (PhotoPage Nat) :=
  fun qv => if qv.page < 2 then .ok onePhotoPage else .failDecode "bad json"

/-- Comments source: pages before 2 decode with one comment, page 2
decodes with an empty collection. -/
def commentsSrcEmptyAt2 : String → commentsPager → FetchOutcome (CommentsPage Nat) :=
  fun _ cp => if cp.pageNumber < 2 then .ok oneCommentsPage else .ok noCommentsPage

/-- Comments source: every page decodes with one comment. -/
def commentsSrcAllOk : String → commentsPager → FetchOutcome (CommentsPage Nat) :=
  fun _ _ => .ok oneCommentsPage

/-- Comments source: pages before 2 decode, page 2 fails in transport. -/
def commentsSrcFailAt2 : String → commentsPager → FetchOutcome (CommentsPage Nat) :=
  fun _ cp => if cp.pageNumber < 2 then .ok oneCommentsPage else .failTransport "network down"

/-- The last page number of `pageList` is a member of it. -/
theorem pageList_mem_self_add (p : Int) (k : Nat) :
    p + (k : Int) ∈ pageList p (k + 1) := by
  induction k generalizing p with
  | zero => simp [pageList]
  | succ k ih =>
    rw [pageList]
    refine List.mem_cons.2 (Or.inr ?_)
    have := ih (p + 1)
    have harith : p + 1 + (k : Int) = p + ((k : Nat) + 1 : Nat) := by push_cast; omega
    rwa [harith] at this

/-- C1.  The claim is FALSE for `ListPhotos`: its loop contains no
empty-page check, so an empty decoded page is emitted and the loop keeps
fetching further pages.  Concretely, on a source whose page 1 is
non-empty and whose pages from 2 on are empty (the claim's scenario with
N = 2), the list stream does not stop at page 2: with fuel 4 it emits 4
pages and iterates over pages 1, 2, 3 and 4 without ever closing. -/
theorem C1_counterexample :
    (Except.toOption (ListPhotosStream listSrcEmptyAt2 noCancel 4 (some sampleList))).map
      (fun t => (t.emitted.length, t.fetched, t.finished)) =
      some (4, [1, 2, 3, 4], false) := by
  decide

/-- C1 (amended).  For `SearchPhotos` the claim holds: when pages before
`P` are non-empty and page `P` decodes empty, the stream emits the pages
before `P` and then the empty page (as decoded, unstamped) and closes —
with `P = N` and start page 1 that is exactly N pages, the last empty.
For `ListPhotos` there is no empty-page termination at all: on any
all-decoding source (empty pages included) the loop emits one page per
unit of fuel and never closes on its own when the max-page bound is
unset and cancellation never fires. -/
theorem C1_amended :
    (∀ (α : Type) (source : PhotoSearchQuery → FetchOutcome (PhotoPage α))
        (pg : Int → PhotoPage α) (pgP : PhotoPage α) (P : Int) (k fuel : Nat)
        (ps : PhotoSearch),
        ps.maxPageNumber ≤ 0 →
        ps.pageNumber + k = P →
        k < fuel →
        (∀ q : Int, ps.pageNumber ≤ q → q < P →
          source ({ ps with pageNumber := q } : PhotoSearch).toQuery = .ok (pg q)) →
        (∀ q : Int, ps.pageNumber ≤ q → q < P → (pg q).photos ≠ []) →
        source ({ ps with pageNumber := P } : PhotoSearch).toQuery = .ok pgP →
        pgP.photos = [] →
        (searchRun source noCancel ps fuel).emitted.length = k + 1 ∧
        (searchRun source noCancel ps fuel).emitted.getLast? = some pgP ∧
        (searchRun source noCancel ps fuel).finished = true)
  ∧ (∀ (α : Type) (source : PhotoRequestQuery → FetchOutcome (PhotoPage α))
        (pg : Int → PhotoPage α) (fuel : Nat) (preq : PhotoRequest),
        preq.maxPageNumber ≤ 0 →
        (∀ q : Int, preq.pageNumber ≤ q →
          source ({ preq with pageNumber := q } : PhotoRequest).toQuery = .ok (pg q)) →
        (listRun source noCancel preq fuel).emitted.length = fuel ∧
        (listRun source noCancel preq fuel).finished = false) := by
  constructor
  · intro α source pg pgP P k fuel ps hmax hpk hfuel hsrc hne hP hPe
    have h := searchRun_empty_end source pg pgP P k fuel ps hmax hpk hfuel hsrc hne hP hPe
    rw [h]
    refine ⟨?_, ?_, rfl⟩
    · simp [pageList_length]
    · simp [List.getLast?_concat]
  · intro α source pg fuel preq hmax hsrc
    have h := listRun_ok_forever source pg fuel preq hmax hsrc
    rw [h]
    simp [pageList_length]

/-- Witness for C1 (amended): a search over a source whose page 1 holds
one photo and whose page 2 is empty emits 2 pages ending in the empty
page and closes; a list over an all-decoding source with fuel 3 emits 3
pages without closing. -/
theorem C1_amended_witness :
    ((searchRun searchSrcEmptyAt2 noCancel sampleSearch 3).emitted.length = 2 ∧
     (searchRun searchSrcEmptyAt2 noCancel sampleSearch 3).emitted.getLast? =
       some noPhotosPage ∧
     (searchRun searchSrcEmptyAt2 noCancel sampleSearch 3).finished = true) ∧
    ((listRun listSrcAllOk noCancel sampleList 3).emitted.length = 3 ∧
     (listRun listSrcAllOk noCancel sampleList 3).finished = false) := by
  constructor
  · refine C1_amended.1 Nat searchSrcEmptyAt2 (fun _ => onePhotoPage) noPhotosPage 2 1 3
      sampleSearch (by decide) (by decide) (by decide) ?_ ?_ (by decide) (by decide)
    · intro q h1 h2
      have hq : q = 1 := by
        have h1x : (1 : Int) ≤ q := h1
        omega
      subst hq
      decide
    · intro q h1 h2
      show onePhotoPage.photos ≠ []
      decide
  · exact C1_amended.2 Nat listSrcAllOk (fun _ => onePhotoPage) 3 sampleList (by decide)
      (fun q hq => rfl)

/-- C2.  `CommentsForPhoto` ends the stream silently on an empty decoded
page: with pages before `P` non-empty and page `P` empty, the loop
iterates over page `P` (it is fetched) but emits only the pages before
it and closes — with `P = N` and start page 1, exactly N−1 pages. -/
theorem C2_comments_empty_silent
    (α : Type) (source : String → commentsPager → FetchOutcome (CommentsPage α))
    (pg : Int → CommentsPage α) (pgP : CommentsPage α) (pid : String)
    (m P : Int) (k fuel : Nat) (cp : commentsPager)
    (hm : m ≤ 0)
    (hpk : cp.pageNumber + k = P)
    (hfuel : k < fuel)
    (hsrc : ∀ q : Int, cp.pageNumber ≤ q → q < P →
      source pid ({ cp with pageNumber := q } : commentsPager) = .ok (pg q))
    (hne : ∀ q : Int, cp.pageNumber ≤ q → q < P → (pg q).comments ≠ [])
    (hP : source pid ({ cp with pageNumber := P } : commentsPager) = .ok pgP)
    (hPe : pgP.comments = []) :
    (commentsRun source noCancel pid m cp fuel).emitted.length = k ∧
    (commentsRun source noCancel pid m cp fuel).finished = true ∧
    P ∈ (commentsRun source noCancel pid m cp fuel).fetched := by
  have h := commentsRun_empty_end source pg pgP pid m P k fuel cp hm hpk hfuel hsrc hne hP hPe
  rw [h]
  refine ⟨by simp [pageList_length], rfl, ?_⟩
  have hmem := pageList_mem_self_add cp.pageNumber k
  rwa [hpk] at hmem

/-- Witness for C2: page 1 holds a comment, page 2 is empty; the stream
emits exactly one page, closes, and did iterate over page 2. -/
theorem C2_comments_empty_silent_witness :
    (commentsRun commentsSrcEmptyAt2 noCancel "id1" 0 ⟨1, false⟩ 3).emitted.length = 1 ∧
    (commentsRun commentsSrcEmptyAt2 noCancel "id1" 0 ⟨1, false⟩ 3).finished = true ∧
    (2 : Int) ∈ (commentsRun commentsSrcEmptyAt2 noCancel "id1" 0 ⟨1, false⟩ 3).fetched := by
  refine C2_comments_empty_silent Nat commentsSrcEmptyAt2 (fun _ => oneCommentsPage)
    noCommentsPage "id1" 0 2 1 3 ⟨1, false⟩ (by decide) (by decide) (by decide) ?_ ?_
    (by decide) (by decide)
  · intro q h1 h2
    have hq : q = 1 := by
      have h1x : (1 : Int) ≤ q := h1
      omega
    subst hq
    decide
  · intro q h1 h2
    show oneCommentsPage.comments ≠ []
    decide

/-- C3.  All three streaming endpoints, started at page 1 with a max
page bound `1 + k ≥ 1` over a source with non-empty decodable pages,
emit exactly `k + 1` pages (one per page number from 1 to the bound),
close the stream, and never iterate over page `(1 + k) + 1`: the bound
is checked after emitting the page whose number reaches it and no
further fetch is attempted. -/
theorem C3_max_page_bound :
    (∀ (α : Type) (source : PhotoRequestQuery → FetchOutcome (PhotoPage α))
        (pg : Int → PhotoPage α) (k fuel : Nat) (preq : PhotoRequest),
        preq.pageNumber = 1 →
        preq.maxPageNumber = 1 + k →
        k < fuel →
        (∀ q : Int, 1 ≤ q → q ≤ 1 + k →
          source ({ preq with pageNumber := q } : PhotoRequest).toQuery = .ok (pg q)) →
        (listRun source noCancel preq fuel).emitted.length = k + 1 ∧
        (listRun source noCancel preq fuel).finished = true ∧
        ((1 + k : Int) + 1) ∉ (listRun source noCancel preq fuel).fetched)
  ∧ (∀ (α : Type) (source : PhotoSearchQuery → FetchOutcome (PhotoPage α))
        (pg : Int → PhotoPage α) (k fuel : Nat) (ps : PhotoSearch),
        ps.pageNumber = 1 →
        ps.maxPageNumber = 1 + k →
        k < fuel →
        (∀ q : Int, 1 ≤ q → q ≤ 1 + k →
          source ({ ps with pageNumber := q } : PhotoSearch).toQuery = .ok (pg q)) →
        (∀ q : Int, 1 ≤ q → q ≤ 1 + k → (pg q).photos ≠ []) →
        (searchRun source noCancel ps fuel).emitted.length = k + 1 ∧
        (searchRun source noCancel ps fuel).finished = true ∧
        ((1 + k : Int) + 1) ∉ (searchRun source noCancel ps fuel).fetched)
  ∧ (∀ (α : Type) (source : String → commentsPager → FetchOutcome (CommentsPage α))
        (pg : Int → CommentsPage α) (pid : String) (m : Int) (k fuel : Nat)
        (cp : commentsPager),
        cp.pageNumber = 1 →
        m = 1 + k →
        k < fuel →
        (∀ q : Int, 1 ≤ q → q ≤ 1 + k →
          source pid ({ cp with pageNumber := q } : commentsPager) = .ok (pg q)) →
        (∀ q : Int, 1 ≤ q → q ≤ 1 + k → (pg q).comments ≠ []) →
        (commentsRun source noCancel pid m cp fuel).emitted.length = k + 1 ∧
        (commentsRun source noCancel pid m cp fuel).finished = true ∧
        ((1 + k : Int) + 1) ∉ (commentsRun source noCancel pid m cp fuel).fetched) := by
  refine ⟨?_, ?_, ?_⟩
  · intro α source pg k fuel preq hp1 hmx hfuel hsrc
    have h := listRun_bounded source pg k fuel preq (by omega)
      (by rw [hp1, hmx]) hfuel
      (fun q hq1 hq2 => hsrc q (by omega) (by rw [hmx] at hq2; exact hq2))
    rw [h, hp1]
    refine ⟨by simp [pageList_length], rfl, fun hmem => ?_⟩
    have := pageList_mem 1 (k + 1) _ hmem
    push_cast at this
    omega
  · intro α source pg k fuel ps hp1 hmx hfuel hsrc hne
    have h := searchRun_bounded source pg k fuel ps (by omega)
      (by rw [hp1, hmx]) hfuel
      (fun q hq1 hq2 => hsrc q (by omega) (by rw [hmx] at hq2; exact hq2))
      (fun q hq1 hq2 => hne q (by omega) (by rw [hmx] at hq2; exact hq2))
    rw [h, hp1]
    refine ⟨by simp [pageList_length], rfl, fun hmem => ?_⟩
    have := pageList_mem 1 (k + 1) _ hmem
    push_cast at this
    omega
  · intro α source pg pid m k fuel cp hp1 hmx hfuel hsrc hne
    have h := commentsRun_bounded source pg pid m k fuel cp (by omega)
      (by rw [hp1, hmx]) hfuel
      (fun q hq1 hq2 => hsrc q (by omega) (by rw [← hmx]; exact hq2))
      (fun q hq1 hq2 => hne q (by omega) (by rw [← hmx]; exact hq2))
    rw [h, hp1]
    refine ⟨by simp [pageList_length], rfl, fun hmem => ?_⟩
    have := pageList_mem 1 (k + 1) _ hmem
    push_cast at this
    omega

/-- Witness for C3: bound 2 over all-decoding non-empty sources, fuel 3:
each endpoint emits exactly 2 pages, closes, and never iterates over
page 3. -/
theorem C3_max_page_bound_witness :
    ((listRun listSrcAllOk noCancel { sampleList with maxPageNumber := 2 } 3).emitted.length = 2 ∧
     (listRun listSrcAllOk noCancel { sampleList with maxPageNumber := 2 } 3).finished = true ∧
     (3 : Int) ∉ (listRun listSrcAllOk noCancel { sampleList with maxPageNumber := 2 } 3).fetched) ∧
    ((searchRun searchSrcAllOk noCancel { sampleSearch with maxPageNumber := 2 } 3).emitted.length = 2 ∧
     (searchRun searchSrcAllOk noCancel { sampleSearch with maxPageNumber := 2 } 3).finished = true ∧
     (3 : Int) ∉ (searchRun searchSrcAllOk noCancel { sampleSearch with maxPageNumber := 2 } 3).fetched) ∧
    ((commentsRun commentsSrcAllOk noCancel "id1" 2 ⟨1, false⟩ 3).emitted.length = 2 ∧
     (commentsRun commentsSrcAllOk noCancel "id1" 2 ⟨1, false⟩ 3).finished = true ∧
     (3 : Int) ∉ (commentsRun commentsSrcAllOk noCancel "id1" 2 ⟨1, false⟩ 3).fetched) := by
  refine ⟨?_, ?_, ?_⟩
  · have h := C3_max_page_bound.1 Nat listSrcAllOk (fun _ => onePhotoPage) 1 3
      { sampleList with maxPageNumber := 2 } (by decide) (by decide) (by decide)
      (fun q _ _ => rfl)
    have harith : ((1 + (1 : Nat) : Int) + 1) = 3 := by decide
    rw [harith] at h
    exact h
  · have h := C3_max_page_bound.2.1 Nat searchSrcAllOk (fun _ => onePhotoPage) 1 3
      { sampleSearch with maxPageNumber := 2 } (by decide) (by decide) (by decide)
      (fun q _ _ => rfl)
      (fun q _ _ => by show onePhotoPage.photos ≠ []; decide)
    have harith : ((1 + (1 : Nat) : Int) + 1) = 3 := by decide
    rw [harith] at h
    exact h
  · have h := C3_max_page_bound.2.2 Nat commentsSrcAllOk (fun _ => oneCommentsPage) "id1" 2 1 3
      ⟨1, false⟩ (by decide) (by decide) (by decide)
      (fun q _ _ => rfl)
      (fun q _ _ => by show oneCommentsPage.comments ≠ []; decide)
    have harith : ((1 + (1 : Nat) : Int) + 1) = 3 := by decide
    rw [harith] at h
    exact h

/-- C4.  Both pagination normalizers are total pure functions that set
the page number to `max(input, 1)`, clamp the items-per-page limit
(nonpositive inputs become the default 20, inputs of 100 or more become
the server maximum 100, inputs 1..99 are untouched) and change no other
field. -/
theorem C4_normalization (p : PhotoRequest) (s : PhotoSearch) :
    ((p.adjustPaginationParams).pageNumber = max p.pageNumber 1 ∧
     (p.limitPerPage ≤ 0 → (p.adjustPaginationParams).limitPerPage = 20) ∧
     (p.limitPerPage ≥ 100 → (p.adjustPaginationParams).limitPerPage = 100) ∧
     (1 ≤ p.limitPerPage → p.limitPerPage ≤ 99 →
       (p.adjustPaginationParams).limitPerPage = p.limitPerPage) ∧
     (p.adjustPaginationParams).feature = p.feature ∧
     (p.adjustPaginationParams).userID = p.userID ∧
     (p.adjustPaginationParams).username = p.username ∧
     (p.adjustPaginationParams).only = p.only ∧
     (p.adjustPaginationParams).exclude = p.exclude ∧
     (p.adjustPaginationParams).sortBy = p.sortBy ∧
     (p.adjustPaginationParams).imageSize = p.imageSize ∧
     (p.adjustPaginationParams).includeStore = p.includeStore ∧
     (p.adjustPaginationParams).tags = p.tags ∧
     (p.adjustPaginationParams).maxPageNumber = p.maxPageNumber) ∧
    ((s.adjustPaginationParams).pageNumber = max s.pageNumber 1 ∧
     (s.limitPerPage ≤ 0 → (s.adjustPaginationParams).limitPerPage = 20) ∧
     (s.limitPerPage ≥ 100 → (s.adjustPaginationParams).limitPerPage = 100) ∧
     (1 ≤ s.limitPerPage → s.limitPerPage ≤ 99 →
       (s.adjustPaginationParams).limitPerPage = s.limitPerPage) ∧
     (s.adjustPaginationParams).term = s.term ∧
     (s.adjustPaginationParams).tag = s.tag ∧
     (s.adjustPaginationParams).only = s.only ∧
     (s.adjustPaginationParams).exclude = s.exclude ∧
     (s.adjustPaginationParams).excludeNSFW = s.excludeNSFW ∧
     (s.adjustPaginationParams).tags = s.tags ∧
     (s.adjustPaginationParams).userID = s.userID ∧
     (s.adjustPaginationParams).imageSizes = s.imageSizes ∧
     (s.adjustPaginationParams).licenseTypes = s.licenseTypes ∧
     (s.adjustPaginationParams).sortBy = s.sortBy ∧
     (s.adjustPaginationParams).maxPageNumber = s.maxPageNumber) := by
  refine ⟨⟨?_, ?_, ?_, ?_, ?_, ?_, ?_, ?_, ?_, ?_, ?_, ?_, ?_, ?_⟩,
          ⟨?_, ?_, ?_, ?_, ?_, ?_, ?_, ?_, ?_, ?_, ?_, ?_, ?_, ?_, ?_⟩⟩ <;>
    · intros
      simp only [PhotoRequest.adjustPaginationParams, PhotoSearch.adjustPaginationParams]
      split_ifs <;> simp_all <;> omega

/-- Witness for C4 at concrete inputs: a photo request with page −3 and
limit 0 normalizes to page 1 and limit 20; a search with limit 250
clamps to 100; a search with limit 55 is untouched. -/
theorem C4_normalization_witness :
    (({ sampleList with pageNumber := -3, limitPerPage := 0 } :
        PhotoRequest).adjustPaginationParams).pageNumber = 1 ∧
    (({ sampleList with pageNumber := -3, limitPerPage := 0 } :
        PhotoRequest).adjustPaginationParams).limitPerPage = 20 ∧
    (({ sampleSearch with limitPerPage := 250 } :
        PhotoSearch).adjustPaginationParams).limitPerPage = 100 ∧
    (({ sampleSearch with limitPerPage := 55 } :
        PhotoSearch).adjustPaginationParams).limitPerPage = 55 := by
  refine ⟨?_, ?_, ?_, ?_⟩
  · have h := (C4_normalization { sampleList with pageNumber := -3, limitPerPage := 0 }
      sampleSearch).1.1
    rw [h]
    decide
  · exact (C4_normalization { sampleList with pageNumber := -3, limitPerPage := 0 }
      sampleSearch).1.2.1 (by decide)
  · exact (C4_normalization sampleList
      { sampleSearch with limitPerPage := 250 }).2.2.2.1 (by decide)
  · exact (C4_normalization sampleList
      { sampleSearch with limitPerPage := 55 }).2.2.2.2.1 (by decide) (by decide)

/-- C5.  The claim is FALSE in general: the comments engine never stamps
pages — an emitted comments page keeps whatever `current_page` the
response decoded to.  Concretely, over a source whose page 1 decodes
with one comment but no current_page field (so 0), the emitted page
carries PageNumber 0 while the engine's iteration was over page 1. -/
theorem C5_counterexample :
    (Except.toOption (CommentsForPhotoStream commentsSrcAllOk noCancel 3
        (some ⟨"id1", 1, false, 1⟩))).map
      (fun t => (t.emitted.map (fun cpg => cpg.pageNumber), t.fetched, t.finished)) =
      some ([0], [1], true) := by
  decide

/-- C5 (amended).  The LIST engine stamps every decoded page with the
engine's current page number before emission, whatever the response
carried: over any decode-success source the emitted pages' PageNumber
fields equal the loop's page numbers, in order.  The spec's worked
example holds: a list stream with feature "popular", 10 items per page
and max page 2 over a non-empty source emits exactly the two pages
numbered 1 and 2 and closes.  (The search engine stamps only non-empty
decoded pages — its terminal empty page and error pages are emitted
unstamped — and the comments engine never stamps.) -/
theorem C5_amended :
    (∀ (α : Type) (source : PhotoRequestQuery → FetchOutcome (PhotoPage α))
        (c : Int → Bool) (fuel : Nat) (preq : PhotoRequest),
        (∀ qv, ∃ pp, source qv = .ok pp) →
        (listRun source c preq fuel).emitted.map (fun pp => pp.pageNumber) =
          (listRun source c preq fuel).fetched)
  ∧ ((Except.toOption (ListPhotosStream listSrcAllOk noCancel 5 (some exampleList))).map
       (fun t => (t.emitted.map (fun pp => pp.pageNumber), t.finished)) =
       some ([1, 2], true)) := by
  constructor
  · intro α source c fuel preq hok
    exact listRun_stamped source c hok fuel preq
  · decide

/-- Witness for C5 (amended): the stamping equality evaluated on the
all-decoding list source with fuel 3. -/
theorem C5_amended_witness :
    (listRun listSrcAllOk noCancel sampleList 3).emitted.map (fun pp => pp.pageNumber) =
      (listRun listSrcAllOk noCancel sampleList 3).fetched := by
  exact C5_amended.1 Nat listSrcAllOk noCancel 3 sampleList (fun qv => ⟨onePhotoPage, rfl⟩)

/-- C6.  A nil request (and, for list and comments, a request missing
its required filter) is rejected synchronously by every entry point: the
call returns the validation error with no page sequence and no cancel
handle, and no loop iteration or fetch is ever performed. -/
theorem C6_validation
    (α : Type) (sourceL : PhotoRequestQuery → FetchOutcome (PhotoPage α))
    (sourceS : PhotoSearchQuery → FetchOutcome (PhotoPage α))
    (sourceC : String → commentsPager → FetchOutcome (CommentsPage α))
    (cL cS cC : Int → Bool) (fL fS fC : Nat)
    (oreq : Option PhotoRequest) (ops : Option PhotoSearch) (creq : Option CommentsRequest)
    (hL : oreq = none ∨ ∃ r, oreq = some r ∧ r.feature = "")
    (hS : ops = none)
    (hC : creq = none ∨ ∃ r, creq = some r ∧ r.photoID = "") :
    (∃ e, ListPhotosStream sourceL cL fL oreq = .error e) ∧
    streamFetches (ListPhotosStream sourceL cL fL oreq) = [] ∧
    SearchPhotosStream sourceS cS fS ops = .error errNilPhotoSearch ∧
    streamFetches (SearchPhotosStream sourceS cS fS ops) = [] ∧
    (∃ e, CommentsForPhotoStream sourceC cC fC creq = .error e) ∧
    streamFetches (CommentsForPhotoStream sourceC cC fC creq) = [] := by
  have hLerr : ∃ e, ListPhotosStream sourceL cL fL oreq = .error e := by
    rcases hL with rfl | ⟨r, rfl, hfe⟩
    · exact ⟨errNilPhotoRequest, rfl⟩
    · exact ⟨errEmptyFeature, by simp [ListPhotosStream, PhotoRequest.Validate, hfe]⟩
  have hCerr : ∃ e, CommentsForPhotoStream sourceC cC fC creq = .error e := by
    rcases hC with rfl | ⟨r, rfl, hid⟩
    · exact ⟨errNilCommentsRequest, rfl⟩
    · exact ⟨errEmptyPhotoID, by simp [CommentsForPhotoStream, CommentsRequest.Validate, hid]⟩
  obtain ⟨eL, heL⟩ := hLerr
  obtain ⟨eC, heC⟩ := hCerr
  subst hS
  refine ⟨⟨eL, heL⟩, ?_, rfl, rfl, ⟨eC, heC⟩, ?_⟩
  · rw [heL]; rfl
  · rw [heC]; rfl

/-- Witness for C6: nil requests against all three endpoints, and an
empty-feature list request, are rejected with no iteration. -/
theorem C6_validation_witness :
    ((∃ e, ListPhotosStream listSrcAllOk noCancel 3 none = .error e) ∧
     streamFetches (ListPhotosStream listSrcAllOk noCancel 3 none) = [] ∧
     SearchPhotosStream searchSrcAllOk noCancel 3 none = .error errNilPhotoSearch ∧
     streamFetches (SearchPhotosStream searchSrcAllOk noCancel 3 none) = [] ∧
     (∃ e, CommentsForPhotoStream commentsSrcAllOk noCancel 3 none = .error e) ∧
     streamFetches (CommentsForPhotoStream commentsSrcAllOk noCancel 3 none) = []) ∧
    (∃ e, ListPhotosStream listSrcAllOk noCancel 3
        (some { sampleList with feature := "" }) = .error e) := by
  constructor
  · exact C6_validation Nat listSrcAllOk searchSrcAllOk commentsSrcAllOk
      noCancel noCancel noCancel 3 3 3 none none none (Or.inl rfl) rfl (Or.inl rfl)
  · exact (C6_validation Nat listSrcAllOk searchSrcAllOk commentsSrcAllOk
      noCancel noCancel noCancel 3 3 3 (some { sampleList with feature := "" }) none none
      (Or.inr ⟨_, rfl, rfl⟩) rfl (Or.inl rfl)).1

/-- C7.  In every engine, a pipeline failure at any stage (query
encoding, request construction, transport, decode) at some page `P`,
after successfully decoded non-empty pages, is delivered in-band: the
stream emits the earlier pages, then one final zero-value page whose
error field carries the failure message, and closes; the loop iterates
over each page number at most once (no retry). -/
theorem C7_error_terminal :
    (∀ (α : Type) (source : PhotoRequestQuery → FetchOutcome (PhotoPage α))
        (pg : Int → PhotoPage α) (e : String) (P : Int) (k fuel : Nat)
        (preq : PhotoRequest),
        preq.maxPageNumber ≤ 0 →
        preq.pageNumber + k = P →
        k < fuel →
        (∀ q : Int, preq.pageNumber ≤ q → q < P →
          source ({ preq with pageNumber := q } : PhotoRequest).toQuery = .ok (pg q)) →
        (source ({ preq with pageNumber := P } : PhotoRequest).toQuery).failMsg = some e →
        (listRun source noCancel preq fuel).emitted.getLast? = some (errPhotoPage e) ∧
        (listRun source noCancel preq fuel).emitted.length = k + 1 ∧
        (listRun source noCancel preq fuel).finished = true ∧
        (listRun source noCancel preq fuel).fetched.Nodup)
  ∧ (∀ (α : Type) (source : PhotoSearchQuery → FetchOutcome (PhotoPage α))
        (pg : Int → PhotoPage α) (e : String) (P : Int) (k fuel : Nat)
        (ps : PhotoSearch),
        ps.maxPageNumber ≤ 0 →
        ps.pageNumber + k = P →
        k < fuel →
        (∀ q : Int, ps.pageNumber ≤ q → q < P →
          source ({ ps with pageNumber := q } : PhotoSearch).toQuery = .ok (pg q)) →
        (∀ q : Int, ps.pageNumber ≤ q → q < P → (pg q).photos ≠ []) →
        (source ({ ps with pageNumber := P } : PhotoSearch).toQuery).failMsg = some e →
        (searchRun source noCancel ps fuel).emitted.getLast? = some (errPhotoPage e) ∧
        (searchRun source noCancel ps fuel).emitted.length = k + 1 ∧
        (searchRun source noCancel ps fuel).finished = true ∧
        (searchRun source noCancel ps fuel).fetched.Nodup)
  ∧ (∀ (α : Type) (source : String → commentsPager → FetchOutcome (CommentsPage α))
        (pg : Int → CommentsPage α) (pid e : String) (m P : Int) (k fuel : Nat)
        (cp : commentsPager),
        m ≤ 0 →
        cp.pageNumber + k = P →
        k < fuel →
        (∀ q : Int, cp.pageNumber ≤ q → q < P →
          source pid ({ cp with pageNumber := q } : commentsPager) = .ok (pg q)) →
        (∀ q : Int, cp.pageNumber ≤ q → q < P → (pg q).comments ≠ []) →
        (source pid ({ cp with pageNumber := P } : commentsPager)).failMsg = some e →
        (commentsRun source noCancel pid m cp fuel).emitted.getLast? =
          some (errCommentsPage e) ∧
        (commentsRun source noCancel pid m cp fuel).emitted.length = k + 1 ∧
        (commentsRun source noCancel pid m cp fuel).finished = true ∧
        (commentsRun source noCancel pid m cp fuel).fetched.Nodup) := by
  refine ⟨?_, ?_, ?_⟩
  · intro α source pg e P k fuel preq hmax hpk hfuel hsrc hfail
    have h := listRun_err_segment source pg e P k fuel preq hmax hpk hfuel hsrc hfail
    rw [h]
    exact ⟨by simp [List.getLast?_concat], by simp [pageList_length], rfl, pageList_nodup _ _⟩
  · intro α source pg e P k fuel ps hmax hpk hfuel hsrc hne hfail
    have h := searchRun_err_segment source pg e P k fuel ps hmax hpk hfuel hsrc hne hfail
    rw [h]
    exact ⟨by simp [List.getLast?_concat], by simp [pageList_length], rfl, pageList_nodup _ _⟩
  · intro α source pg pid e m P k fuel cp hmax hpk hfuel hsrc hne hfail
    have h := commentsRun_err_segment source pg pid e m P k fuel cp hmax hpk hfuel hsrc hne hfail
    rw [h]
    exact ⟨by simp [List.getLast?_concat], by simp [pageList_length], rfl, pageList_nodup _ _⟩

/-- Witness for C7: sources that decode page 1 and fail at page 2
(transport for list and comments, decode for search): each stream emits
2 pages ending in the error page, closes, and iterated each page once. -/
theorem C7_error_terminal_witness :
    ((listRun listSrcFailAt2 noCancel sampleList 3).emitted.getLast? =
       some (errPhotoPage "network down") ∧
     (listRun listSrcFailAt2 noCancel sampleList 3).emitted.length = 2 ∧
     (listRun listSrcFailAt2 noCancel sampleList 3).finished = true ∧
     (listRun listSrcFailAt2 noCancel sampleList 3).fetched.Nodup) ∧
    ((searchRun searchSrcFailAt2 noCancel sampleSearch 3).emitted.getLast? =
       some (errPhotoPage "bad json") ∧
     (searchRun searchSrcFailAt2 noCancel sampleSearch 3).emitted.length = 2 ∧
     (searchRun searchSrcFailAt2 noCancel sampleSearch 3).finished = true ∧
     (searchRun searchSrcFailAt2 noCancel sampleSearch 3).fetched.Nodup) ∧
    ((commentsRun commentsSrcFailAt2 noCancel "id1" 0 ⟨1, false⟩ 3).emitted.getLast? =
       some (errCommentsPage "network down") ∧
     (commentsRun commentsSrcFailAt2 noCancel "id1" 0 ⟨1, false⟩ 3).emitted.length = 2 ∧
     (commentsRun commentsSrcFailAt2 noCancel "id1" 0 ⟨1, false⟩ 3).finished = true ∧
     (commentsRun commentsSrcFailAt2 noCancel "id1" 0 ⟨1, false⟩ 3).fetched.Nodup) := by
  refine ⟨?_, ?_, ?_⟩
  · refine C7_error_terminal.1 Nat listSrcFailAt2 (fun _ => onePhotoPage) "network down"
      2 1 3 sampleList (by decide) (by decide) (by decide) ?_ (by decide)
    intro q h1 h2
    have hq : q = 1 := by
      have h1x : (1 : Int) ≤ q := h1
      omega
    subst hq
    decide
  · refine C7_error_terminal.2.1 Nat searchSrcFailAt2 (fun _ => onePhotoPage) "bad json"
      2 1 3 sampleSearch (by decide) (by decide) (by decide) ?_
      (fun q _ _ => by show onePhotoPage.photos ≠ []; decide) (by decide)
    intro q h1 h2
    have hq : q = 1 := by
      have h1x : (1 : Int) ≤ q := h1
      omega
    subst hq
    decide
  · refine C7_error_terminal.2.2 Nat commentsSrcFailAt2 (fun _ => oneCommentsPage) "id1"
      "network down" 0 2 1 3 ⟨1, false⟩ (by decide) (by decide) (by decide) ?_
      (fun q _ _ => by show oneCommentsPage.comments ≠ []; decide) (by decide)
    intro q h1 h2
    have hq : q = 1 := by
      have h1x : (1 : Int) ≤ q := h1
      omega
    subst hq
    decide

/-- C8.  Every entry point works on a snapshot: the page trace (what is
emitted and which pages the loop iterates over) is a function of the
engine's private copy only — the caller's cell, however it is mutated
between iterations, never influences it — and the engine never writes
the caller's cell, so after any run with no caller-side mutation the
caller's object is unchanged; the list entry point's private copy is the
normalized snapshot of the request value at call time. -/
theorem C8_snapshot :
    (∀ (α : Type) (source : PhotoRequestQuery → FetchOutcome (PhotoPage α))
        (c : Int → Bool) (mu : Int → PhotoRequest → PhotoRequest)
        (fuel : Nat) (caller preq : PhotoRequest),
        (listRunMut source c mu caller preq fuel).1 = listRun source c preq fuel)
  ∧ (∀ (α : Type) (source : PhotoRequestQuery → FetchOutcome (PhotoPage α))
        (c : Int → Bool) (fuel : Nat) (caller preq : PhotoRequest),
        (listRunMut source c (fun _ r => r) caller preq fuel).2 = caller)
  ∧ (∀ (α : Type) (source : PhotoSearchQuery → FetchOutcome (PhotoPage α))
        (c : Int → Bool) (mu : Int → PhotoSearch → PhotoSearch)
        (fuel : Nat) (caller ps : PhotoSearch),
        (searchRunMut source c mu caller ps fuel).1 = searchRun source c ps fuel)
  ∧ (∀ (α : Type) (source : PhotoSearchQuery → FetchOutcome (PhotoPage α))
        (c : Int → Bool) (fuel : Nat) (caller ps : PhotoSearch),
        (searchRunMut source c (fun _ r => r) caller ps fuel).2 = caller)
  ∧ (∀ (α : Type) (source : String → commentsPager → FetchOutcome (CommentsPage α))
        (c : Int → Bool) (mu : Int → CommentsRequest → CommentsRequest)
        (pid : String) (m : Int) (fuel : Nat) (caller : CommentsRequest)
        (cp : commentsPager),
        (commentsRunMut source c mu pid m caller cp fuel).1 =
          commentsRun source c pid m cp fuel)
  ∧ (∀ (α : Type) (source : String → commentsPager → FetchOutcome (CommentsPage α))
        (c : Int → Bool) (pid : String) (m : Int) (fuel : Nat)
        (caller : CommentsRequest) (cp : commentsPager),
        (commentsRunMut source c (fun _ r => r) pid m caller cp fuel).2 = caller)
  ∧ (∀ (α : Type) (source : PhotoRequestQuery → FetchOutcome (PhotoPage α))
        (c : Int → Bool) (mu : Int → PhotoRequest → PhotoRequest)
        (fuel : Nat) (r : PhotoRequest),
        r.feature ≠ "" →
        ListPhotosStream source c fuel (some r) =
          .ok (listRunMut source c mu r r.adjustPaginationParams fuel).1) := by
  refine ⟨?_, ?_, ?_, ?_, ?_, ?_, ?_⟩
  · intro α source c mu fuel caller preq
    exact listRunMut_trace source c mu fuel caller preq
  · intro α source c fuel caller preq
    exact listRunMut_caller source c fuel caller preq
  · intro α source c mu fuel caller ps
    exact searchRunMut_trace source c mu fuel caller ps
  · intro α source c fuel caller ps
    exact searchRunMut_caller source c fuel caller ps
  · intro α source c mu pid m fuel caller cp
    exact commentsRunMut_trace source c mu pid m fuel caller cp
  · intro α source c pid m fuel caller cp
    exact commentsRunMut_caller source c pid m fuel caller cp
  · intro α source c mu fuel r hfe
    rw [listRunMut_trace source c mu fuel r r.adjustPaginationParams]
    simp [ListPhotosStream, PhotoRequest.Validate, hfe]

/-- Witness for C8: the entry-point conjunct evaluated on the sample
list request (non-empty feature) with a mutation that rewrites the
caller's request wholesale. -/
theorem C8_snapshot_witness :
    ListPhotosStream listSrcAllOk noCancel 2 (some sampleList) =
      .ok (listRunMut listSrcAllOk noCancel
        (fun _ _ => { sampleList with pageNumber := 99 })
        sampleList sampleList.adjustPaginationParams 2).1 := by
  exact C8_snapshot.2.2.2.2.2.2 Nat listSrcAllOk noCancel
    (fun _ _ => { sampleList with pageNumber := 99 }) 2 sampleList (by decide)

/-- C9.  The cancel function returned by `makeCanceler` is a one-shot
idempotent latch: any positive number of successive calls succeeds (no
panic — the `sync.Once` guard means the channel is closed exactly once)
and leaves the once fired and the channel closed; the closed channel is
what the engine's wait-step select observes; a further call on the fired
state is a no-op; and an engine whose wait step observes the closed
channel stops right after the in-flight page is emitted. -/
theorem C9_cancel_latch :
    (∀ n : Nat, 1 ≤ n → cancelCalls n = .ok ⟨true, ChanState.closed⟩)
  ∧ selectCancelled ChanState.closed = true
  ∧ cancelFn ⟨true, ChanState.closed⟩ = .ok ⟨true, ChanState.closed⟩
  ∧ (∀ (α : Type) (source : PhotoRequestQuery → FetchOutcome (PhotoPage α))
       (preq : PhotoRequest) (fuel : Nat) (pp0 : PhotoPage α),
       source preq.toQuery = .ok pp0 →
       listRun source (fun _ => selectCancelled ChanState.closed) preq (fuel + 1) =
         ⟨[{ pp0 with pageNumber := preq.pageNumber }], [preq.pageNumber], true⟩) := by
  refine ⟨?_, rfl, rfl, ?_⟩
  · intro n hn
    induction n with
    | zero => omega
    | succ n ih =>
      cases n with
      | zero => rfl
      | succ m =>
        have hx := ih (by omega)
        rw [cancelCalls, hx]
        rfl
  · intro α source preq fuel pp0 h0
    rw [listRun_ok_step source _ preq fuel pp0 h0]
    simp [selectCancelled]

/-- Witness for C9: two successive cancel calls end in the fired/closed
state without fault, and a cancelled engine over the all-decoding list
source emits exactly the one in-flight page and closes. -/
theorem C9_cancel_latch_witness :
    cancelCalls 2 = .ok ⟨true, ChanState.closed⟩ ∧
    listRun listSrcAllOk (fun _ => selectCancelled ChanState.closed) sampleList 3 =
      ⟨[{ onePhotoPage with pageNumber := sampleList.pageNumber }],
       [sampleList.pageNumber], true⟩ := by
  constructor
  · exact C9_cancel_latch.1 2 (by omega)
  · exact C9_cancel_latch.2.2.2 Nat listSrcAllOk sampleList 2 onePhotoPage rfl

/-- C10.  A nonpositive (hence any negative) `MaxPageNumber` behaves
exactly like 0: `pageExceeds` rejects every page, and each engine's
whole run with such a bound equals the run with the bound 0, so the
max-page bound never ends the stream. -/
theorem C10_negative_max_unbounded :
    (∀ m q : Int, m ≤ 0 → pageExceeds m q = false)
  ∧ (∀ (α : Type) (source : PhotoRequestQuery → FetchOutcome (PhotoPage α))
       (c : Int → Bool) (fuel : Nat) (preq : PhotoRequest),
       preq.maxPageNumber ≤ 0 →
       listRun source c preq fuel =
         listRun source c { preq with maxPageNumber := 0 } fuel)
  ∧ (∀ (α : Type) (source : PhotoSearchQuery → FetchOutcome (PhotoPage α))
       (c : Int → Bool) (fuel : Nat) (ps : PhotoSearch),
       ps.maxPageNumber ≤ 0 →
       searchRun source c ps fuel =
         searchRun source c { ps with maxPageNumber := 0 } fuel)
  ∧ (∀ (α : Type) (source : String → commentsPager → FetchOutcome (CommentsPage α))
       (c : Int → Bool) (pid : String) (m : Int) (fuel : Nat) (cp : commentsPager),
       m ≤ 0 →
       commentsRun source c pid m cp fuel = commentsRun source c pid 0 cp fuel) := by
  refine ⟨?_, ?_, ?_, ?_⟩
  · intro m q h
    exact pageExceeds_nonpos m q h
  · intro α source c fuel preq h
    refine listRun_congr source c fuel preq { preq with maxPageNumber := 0 } rfl rfl ?_
    intro q
    rw [pageExceeds_nonpos _ _ h, pageExceeds_nonpos _ _ (by exact le_rfl)]
  · intro α source c fuel ps h
    refine searchRun_congr source c fuel ps { ps with maxPageNumber := 0 } rfl rfl ?_
    intro q
    rw [pageExceeds_nonpos _ _ h, pageExceeds_nonpos _ _ (by exact le_rfl)]
  · intro α source c pid m fuel cp h
    exact commentsRun_congr source c pid m 0
      (fun q => by rw [pageExceeds_nonpos _ _ h, pageExceeds_nonpos _ _ le_rfl]) fuel cp

/-- Witness for C10: the bound check at −5 rejects page 7, and the list
run with `MaxPageNumber` −3 equals the run with 0. -/
theorem C10_negative_max_unbounded_witness :
    pageExceeds (-5) 7 = false ∧
    listRun listSrcAllOk noCancel { sampleList with maxPageNumber := -3 } 3 =
      listRun listSrcAllOk noCancel
        { { sampleList with maxPageNumber := -3 } with maxPageNumber := 0 } 3 := by
  constructor
  · exact C10_negative_max_unbounded.1 (-5) 7 (by decide)
  · exact C10_negative_max_unbounded.2.1 Nat listSrcAllOk noCancel 3
      { sampleList with maxPageNumber := -3 } (by decide)

end Px500
